import Mathlib

/-!
Verification development for the traffic-accident analysis toolkit
(`traffic_analysis` package): a shallow embedding, in Lean 4, of the
data-cleaning pipeline (`data_cleaner.py`), the CSV ingestion fallback
logic (`data_loader.py`, `data_cleaner.py`) and the severity-classifier
feature/encoding pipeline (`ml_classifier.py`), together with theorems
settling the specified properties of those components.

Tables are modelled as an ordered list of column names plus a list of
rows; cells are a small value universe (missing, missing-timestamp,
exact rational numbers, strings, timestamps).  Machine floats are
idealized as exact rationals: the source manipulates coordinate and
hour values whose decimal forms are exactly representable, and pandas
guarantees exact string round-trips for floats, which the model keeps.
-/

namespace TrafficAnalysis

/-! ### Exact rationals with kernel-reducible normalization

`Rat` from the standard library normalizes through `Nat.gcd`, which the
kernel cannot evaluate, so concrete runs of the pipeline could not be
checked by `decide`.  `Q` is a plain numerator/denominator pair whose
smart constructor normalizes with a fuel-bounded Euclid gcd that the
kernel reduces.  All operations go through the smart constructor, so
values produced by the embedding are in lowest terms and structural
equality coincides with rational equality on them. -/

/-- Euclid's gcd with explicit fuel (structural recursion, so the kernel
can evaluate it; fuel `m + 1` always suffices). -/
def gcdF : Nat → Nat → Nat → Nat
  | 0, _, n => n
  | Nat.succ f, m, n => if m = 0 then n else gcdF f (n % m) m

/-- Greatest common divisor via `gcdF` with sufficient fuel. -/
def natGcd (m n : Nat) : Nat := gcdF (m + 1) m n

/-- Exact rational number: integer numerator, natural denominator.
Built only through `Q.mk'`, which normalizes. -/
structure Q where
  num : Int
  den : Nat
  deriving DecidableEq, Repr

namespace Q

/-- Normalizing constructor (denominator `0` is mapped to `0/1`;
the embedding never divides by zero). -/
def mk' (n : Int) (d : Nat) : Q :=
  if d = 0 then ⟨0, 1⟩
  else
    let g := natGcd n.natAbs d
    ⟨n / (g : Int), d / g⟩

/-- Embed an integer. -/
def ofInt (n : Int) : Q := ⟨n, 1⟩

/-- Addition. -/
def add (a b : Q) : Q := mk' (a.num * (b.den : Int) + b.num * (a.den : Int)) (a.den * b.den)

/-- Halving (used for the even-length median). -/
def half (a : Q) : Q := mk' a.num (2 * a.den)

/-- Boolean less-or-equal by cross multiplication (denominators are
nonnegative). -/
def bLe (a b : Q) : Bool := a.num * (b.den : Int) ≤ b.num * (a.den : Int)

/-- Boolean strict less-than by cross multiplication. -/
def bLt (a b : Q) : Bool := a.num * (b.den : Int) < b.num * (a.den : Int)

end Q

/-! ### Cell values and data frames -/

/-- A cell of a table.  `na` models a float/object missing value (NaN or
None), `ndt` models a missing timestamp (NaT) — pandas keeps the two
apart through the column dtype, which this model derives from content.
`dt` carries the calendar components the cleaning code extracts
(year, month, day, hour, weekday with Monday = 0). -/
inductive Value where
  | na : Value
  | ndt : Value
  | num : Q → Value
  | str : String → Value
  | dt : Int → Int → Int → Int → Int → Value
  deriving DecidableEq, Repr

namespace Value

/-- Missing test, as `pandas.isna`: both NaN/None and NaT are missing. -/
def isNa : Value → Bool
  | .na => true
  | .ndt => true
  | _ => false

/-- Is this cell a number? -/
def isNum : Value → Bool
  | .num _ => true
  | _ => false

/-- Is this cell a string? -/
def isStr : Value → Bool
  | .str _ => true
  | _ => false

/-- Is this cell a concrete timestamp? -/
def isDt : Value → Bool
  | .dt _ _ _ _ _ => true
  | _ => false

end Value

/-- A data frame: ordered column names and a list of rows.  In
well-formed frames every row has exactly `cols.length` cells; the
operations read absent cells as `na` to stay total. -/
structure Df where
  cols : List String
  rows : List (List Value)
  deriving DecidableEq, Repr

namespace Df

/-- Index of the first column with the given name (`None` when the
name is absent), mirroring label-based column access. -/
def colIdx (df : Df) (name : String) : Option Nat :=
  go name df.cols
where
  /-- Linear scan for the first occurrence. -/
  go (name : String) : List String → Option Nat
    | [] => none
    | c :: cs => if c = name then some 0 else (go name cs).map (· + 1)

/-- The values of column `j`, top to bottom. -/
def colVals (df : Df) (j : Nat) : List Value :=
  df.rows.map (fun r => r.getD j Value.na)

/-- Point-wise update of column `j`. -/
def mapColAt (df : Df) (j : Nat) (f : Value → Value) : Df :=
  { df with rows := df.rows.map (fun r => r.set j (f (r.getD j Value.na))) }

/-- `df[name] = vs` — overwrite the column if the label exists, append a
new column otherwise (pandas column assignment). -/
def setCol (df : Df) (name : String) (vs : List Value) : Df :=
  match df.colIdx name with
  | some j => { df with rows := df.rows.zipWith (fun r v => r.set j v) vs }
  | none => { cols := df.cols ++ [name], rows := df.rows.zipWith (fun r v => r ++ [v]) vs }

/-- The values of the column with the given name (empty when absent). -/
def getCol (df : Df) (name : String) : List Value :=
  match df.colIdx name with
  | some j => df.colVals j
  | none => []

end Df

/-! ### Column dtype, derived from content

pandas tracks a dtype per column; the model derives it: a column is
numeric (float/int dtype) when every cell is a number or NaN, an
object column when it holds at least one string, and a datetime column
when it is nonempty and every cell is a timestamp or NaT. -/

/-- Numeric dtype: every cell a number or NaN. -/
def isNumericCol (vs : List Value) : Bool :=
  vs.all (fun v => v.isNum || v == Value.na)

/-- Object (categorical/text) dtype: at least one string cell. -/
def isObjectCol (vs : List Value) : Bool :=
  vs.any Value.isStr

/-- Datetime dtype: nonempty, every cell a timestamp or NaT. -/
def isDatetimeCol (vs : List Value) : Bool :=
  !vs.isEmpty && vs.all (fun v => v.isDt || v == Value.ndt)

/-! ### Generic list helpers -/

/-- Insertion into a list sorted by `le`. -/
def insSorted (le : α → α → Bool) (a : α) : List α → List α
  | [] => [a]
  | b :: bs => if le a b then a :: b :: bs else b :: insSorted le a bs

/-- Insertion sort by `le`. -/
def sortBy (le : α → α → Bool) : List α → List α
  | [] => []
  | a :: as => insSorted le a (sortBy le as)

/-- Keep elements not yet seen, in order, extending the seen set. -/
def dedupKeepFirstAux [DecidableEq α] (seen : List α) : List α → List α
  | [] => []
  | a :: as =>
    if a ∈ seen then dedupKeepFirstAux seen as
    else a :: dedupKeepFirstAux (a :: seen) as

/-- First occurrence of each element, later copies removed
(pandas `drop_duplicates`, keep-first). -/
def dedupKeepFirst [DecidableEq α] (l : List α) : List α :=
  dedupKeepFirstAux [] l

/-! ## DataCleaner (`data_cleaner.py`)

The embedding models the default `DataCleaner()` configuration: date
column candidates `colunas_data`, hour column candidates `colunas_hora`,
and coordinate columns `latitude` / `longitude`. -/

/-- `DataCleaner.colunas_data` (line 11). -/
def colunasData : List String := ["data_inversa", "date", "data_ocorrencia", "data"]

/-- `DataCleaner.colunas_hora` (line 12). -/
def colunasHora : List String := ["hora", "horario", "hora_ocorrencia", "time"]

/-- `DataCleaner.coluna_latitude` (line 13). -/
def colunaLatitude : String := "latitude"

/-- `DataCleaner.coluna_longitude` (line 14). -/
def colunaLongitude : String := "longitude"

/-! ### Stage 1: column-name normalization (`padronizar_colunas`, lines 37-47) -/

/-- Models `.str.lower().str.normalize("NFKD").str.encode("ascii",
errors="ignore")` on one character: ASCII characters are lowercased and
kept, accented Latin letters decompose to their lowercase base letter,
any other non-ASCII character is dropped. -/
def charFold (c : Char) : Option Char :=
  if c ∈ ['á', 'à', 'â', 'ã', 'ä', 'Á', 'À', 'Â', 'Ã', 'Ä'] then some 'a'
  else if c ∈ ['é', 'è', 'ê', 'ë', 'É', 'È', 'Ê', 'Ë'] then some 'e'
  else if c ∈ ['í', 'ì', 'î', 'ï', 'Í', 'Ì', 'Î', 'Ï'] then some 'i'
  else if c ∈ ['ó', 'ò', 'ô', 'õ', 'ö', 'Ó', 'Ò', 'Ô', 'Õ', 'Ö'] then some 'o'
  else if c ∈ ['ú', 'ù', 'û', 'ü', 'Ú', 'Ù', 'Û', 'Ü'] then some 'u'
  else if c ∈ ['ç', 'Ç'] then some 'c'
  else if c.val ≤ 127 then some c.toLower
  else none

/-- Models the regex replacement `\s+` → `_`: each maximal run of
whitespace becomes a single underscore (the flag records whether the
previous character belonged to a run). -/
def collapseWs : Bool → List Char → List Char
  | _, [] => []
  | prevWs, c :: cs =>
    if c.isWhitespace then
      if prevWs then collapseWs true cs else '_' :: collapseWs true cs
    else c :: collapseWs false cs

/-- Remove leading and trailing whitespace (`.str.strip()`). -/
def trimChars (cs : List Char) : List Char :=
  ((cs.dropWhile Char.isWhitespace).reverse.dropWhile Char.isWhitespace).reverse

/-- The full column-name normalization chain of `padronizar_colunas`
(lines 40-46): strip, lowercase, strip diacritics to ASCII, collapse
whitespace runs to `_`. -/
def normalizeName (s : String) : String :=
  String.mk (collapseWs false ((trimChars s.data).filterMap charFold))

/-- `DataCleaner.padronizar_colunas` (lines 37-47). -/
def padronizarColunas (df : Df) : Df :=
  { df with cols := df.cols.map normalizeName }

/-! ### Stage 2: temporal resolution (`processar_datas`, lines 49-78)

The date parsing itself is a model of `pandas.to_datetime(...,
errors="coerce", dayfirst=True)` restricted to `D/M/YYYY` and
`YYYY-MM-DD[ HH:MM[:SS]]` forms; anything else coerces to NaT.  The
claims under verification never exercise concrete dates, only the
control flow of this stage. -/

/-- All-digit nonempty string to a number. -/
def parseDigits (cs : List Char) : Option Nat :=
  if cs.isEmpty then none
  else if cs.all Char.isDigit then
    some (cs.foldl (fun acc c => 10 * acc + (c.toNat - 48)) 0)
  else none

/-- Day count since 1970-01-01 of a civil date (Howard Hinnant's
`days_from_civil`, floor divisions). -/
def daysFromCivil (y m d : Int) : Int :=
  let y' := if m ≤ 2 then y - 1 else y
  let era := Int.fdiv y' 400
  let yoe := y' - era * 400
  let mp := if m > 2 then m - 3 else m + 9
  let doy := Int.fdiv (153 * mp + 2) 5 + d - 1
  let doe := yoe * 365 + Int.fdiv yoe 4 - Int.fdiv yoe 100 + doy
  era * 146097 + doe - 719468

/-- Weekday with Monday = 0 (pandas `.dt.weekday`); 1970-01-01 was a
Thursday. -/
def weekdayOf (y m d : Int) : Int :=
  Int.emod (daysFromCivil y m d + 3) 7

/-- Parse a calendar date: `D/M/Y` when `dayfirst`, `M/D/Y` otherwise,
and ISO `Y-M-D` in either mode. -/
def parseDate (dayfirst : Bool) (s : String) : Option (Int × Int × Int) :=
  match s.splitOn "/" with
  | [a, b, c] => do
    let x ← parseDigits a.data
    let y ← parseDigits b.data
    let yr ← parseDigits c.data
    let (d, m) := if dayfirst then (x, y) else (y, x)
    if 1 ≤ m ∧ m ≤ 12 ∧ 1 ≤ d ∧ d ≤ 31 then some ((yr : Int), (m : Int), (d : Int)) else none
  | _ =>
    match s.splitOn "-" with
    | [a, b, c] => do
      let yr ← parseDigits a.data
      let m ← parseDigits b.data
      let d ← parseDigits c.data
      if 1 ≤ m ∧ m ≤ 12 ∧ 1 ≤ d ∧ d ≤ 31 then some ((yr : Int), (m : Int), (d : Int)) else none
    | _ => none

/-- Parse a time of day `HH:MM[:SS]`, returning the hour. -/
def parseHour (s : String) : Option Int :=
  match s.splitOn ":" with
  | [h, mi] => do
    let hv ← parseDigits h.data
    let mv ← parseDigits mi.data
    if hv ≤ 23 ∧ mv ≤ 59 then some (hv : Int) else none
  | [h, mi, se] => do
    let hv ← parseDigits h.data
    let mv ← parseDigits mi.data
    let sv ← parseDigits se.data
    if hv ≤ 23 ∧ mv ≤ 59 ∧ sv ≤ 59 then some (hv : Int) else none
  | _ => none

/-- Model of `pandas.to_datetime(value, errors="coerce")` on one cell:
strings split into a date part and an optional time part; already-parsed
timestamps pass through; everything unparseable becomes NaT. -/
def toDatetimeCell (dayfirst : Bool) (v : Value) : Value :=
  match v with
  | .dt y m d hh wd => .dt y m d hh wd
  | .str s =>
    match s.splitOn " " with
    | [ds] =>
      match parseDate dayfirst ds with
      | some (y, m, d) => .dt y m d 0 (weekdayOf y m d)
      | none => .ndt
    | [ds, ts] =>
      match parseDate dayfirst ds, parseHour ts with
      | some (y, m, d), some hh => .dt y m d hh (weekdayOf y m d)
      | _, _ => .ndt
    | _ => .ndt
  | _ => .ndt

/-- Render a rational for `astype(str)` purposes (exact textual form;
pandas floats round-trip exactly through their repr). -/
def qToStr (q : Q) : String :=
  if q.den = 1 then toString q.num else toString q.num ++ "/" ++ toString q.den

/-- ISO form of a date, as `str(Timestamp.date())` produces. -/
def dateToIso (y m d : Int) : String :=
  toString y ++ "-" ++ toString m ++ "-" ++ toString d

/-- `astype(str)` on one cell. -/
def valueToStr (v : Value) : String :=
  match v with
  | .na => "nan"
  | .ndt => "NaT"
  | .num q => qToStr q
  | .str s => s
  | .dt y m d hh _ => dateToIso y m d ++ " " ++ toString hh ++ ":00:00"

/-- One cell of the combined timestamp column (line 61-64):
`to_datetime(str(data_inversa.date()) + " " + str(hora_cell))`. -/
def combineDateHour (dv hv : Value) : Value :=
  match dv with
  | .dt y m d _ _ => toDatetimeCell false (.str (dateToIso y m d ++ " " ++ valueToStr hv))
  | _ => .ndt

/-- `.dt.year` of one cell (NaT yields NaN). -/
def dtYear : Value → Value
  | .dt y _ _ _ _ => .num (Q.ofInt y)
  | _ => .na

/-- `.dt.month` of one cell. -/
def dtMonth : Value → Value
  | .dt _ m _ _ _ => .num (Q.ofInt m)
  | _ => .na

/-- `.dt.day` of one cell. -/
def dtDay : Value → Value
  | .dt _ _ d _ _ => .num (Q.ofInt d)
  | _ => .na

/-- `.dt.hour` of one cell. -/
def dtHour : Value → Value
  | .dt _ _ _ hh _ => .num (Q.ofInt hh)
  | _ => .na

/-- `.dt.weekday` of one cell. -/
def dtWeekday : Value → Value
  | .dt _ _ _ _ wd => .num (Q.ofInt wd)
  | _ => .na

/-- First column of lines 69-70: the first of `data_hora_completa`,
`data`, `date`, `data_inversa` that is present with datetime dtype. -/
def findTemporalBase (df : Df) : Option Nat :=
  go ["data_hora_completa", "data", "date", "data_inversa"]
where
  /-- Scan the fixed priority list. -/
  go : List String → Option Nat
    | [] => none
    | c :: cs =>
      match df.colIdx c with
      | some j => if isDatetimeCol (df.colVals j) then some j else go cs
      | none => go cs

/-- Lines 52-54: convert each present candidate date column, day-first,
coercing failures. -/
def parseDateCols (df : Df) : Df :=
  colunasData.foldl
    (fun acc c =>
      match acc.colIdx c with
      | some j => acc.mapColAt j (toDatetimeCell true)
      | none => acc) df

/-- Lines 57-66: for each present hour column, best-effort combine
`data_inversa` with it into `data_hora_completa`. -/
def combineDateHourCols (df : Df) : Df :=
  colunasHora.foldl
    (fun acc ch =>
      match acc.colIdx ch, acc.colIdx "data_inversa" with
      | some jh, some jd =>
        acc.setCol "data_hora_completa"
          ((acc.colVals jd).zipWith combineDateHour (acc.colVals jh))
      | _, _ => acc) df

/-- Lines 68-77: derive `ano`, `mes`, `dia`, `hora`, `dia_semana` from
the first timestamp-bearing column, if any. -/
def deriveTimeVars (df : Df) : Df :=
  match findTemporalBase df with
  | none => df
  | some j =>
    ((((df.setCol "ano" ((df.colVals j).map dtYear)).setCol
        "mes" ((df.colVals j).map dtMonth)).setCol
        "dia" ((df.colVals j).map dtDay)).setCol
        "hora" ((df.colVals j).map dtHour)).setCol
        "dia_semana" ((df.colVals j).map dtWeekday)

/-- `DataCleaner.processar_datas` (lines 49-78): convert candidate date
columns day-first, best-effort combine `data_inversa` with an hour
column, then derive the time variables. -/
def processarDatas (df : Df) : Df :=
  deriveTimeVars (combineDateHourCols (parseDateCols df))

/-! ### Stage 3: missing values (`tratar_valores_ausentes`, lines 80-104) -/

/-- Missing fraction of a column (`isna().mean()`), as the exact ratio
`missing count / row count`.  The pair is left unreduced — every use
compares it, and comparison is invariant under reduction.  An empty
column gives `0/0`, which like pandas' `NaN` fails the `> 0.95` test. -/
def fracNa (vs : List Value) : Q := ⟨vs.countP Value.isNa, vs.length⟩

/-- The removal threshold `0.95` of line 86. -/
def q95 : Q := Q.mk' 95 100

/-- Select the entries of `l` at the given positions. -/
def selectIdxs (idxs : List Nat) (l : List α) (d : α) : List α :=
  idxs.map (fun j => l.getD j d)

/-- The numeric value of a cell, if any. -/
def numOf : Value → Option Q
  | .num q => some q
  | _ => none

/-- Median of the present numeric values (pandas: NaN-skipping, mean of
the two middles for even counts, NaN for an empty column). -/
def medianQ (vs : List Value) : Option Q :=
  let xs := sortBy Q.bLe (vs.filterMap numOf)
  if xs.length = 0 then none
  else if xs.length % 2 = 1 then some (xs.getD (xs.length / 2) ⟨0, 1⟩)
  else some (Q.half (Q.add (xs.getD (xs.length / 2 - 1) ⟨0, 1⟩) (xs.getD (xs.length / 2) ⟨0, 1⟩)))

/-- The categorical imputation sentinel of line 102. -/
def sentinelNaoInformado : String := "nao_informado"

/-- Lines 84-89: drop every column whose missing fraction is strictly
above 0.95 (the drop is only performed when the removal list is
nonempty, as in the source's `if colunas_para_remover:`). -/
def dropNearEmpty (df : Df) : Df :=
  if ((List.range df.cols.length).filter
      (fun j => Q.bLt q95 (fracNa (df.colVals j)))).isEmpty then df
  else
    { cols := selectIdxs ((List.range df.cols.length).filter
        (fun j => !Q.bLt q95 (fracNa (df.colVals j)))) df.cols "",
      rows := df.rows.map (fun r => selectIdxs ((List.range df.cols.length).filter
        (fun j => !Q.bLt q95 (fracNa (df.colVals j)))) r Value.na) }

/-- Lines 93-96, one numeric column: if it has missing entries, fill
them with the column median. -/
def imputeNumStep (acc : Df) (j : Nat) : Df :=
  if (acc.colVals j).any Value.isNa then
    match medianQ (acc.colVals j) with
    | some m => acc.mapColAt j (fun v => if v.isNa then .num m else v)
    | none => acc
  else acc

/-- Lines 100-102, one object column: if it has missing entries, fill
them with the sentinel. -/
def imputeObjStep (acc : Df) (j : Nat) : Df :=
  if (acc.colVals j).any Value.isNa then
    acc.mapColAt j (fun v => if v.isNa then .str sentinelNaoInformado else v)
  else acc

/-- Lines 92-96: median imputation over the numeric columns (selected
once, as `select_dtypes` does). -/
def imputeAllNum (df : Df) : Df :=
  ((List.range df.cols.length).filter
    (fun j => isNumericCol (df.colVals j))).foldl imputeNumStep df

/-- Lines 99-102: sentinel imputation over the object columns. -/
def imputeAllObj (df : Df) : Df :=
  ((List.range df.cols.length).filter
    (fun j => isObjectCol (df.colVals j))).foldl imputeObjStep df

/-- `DataCleaner.tratar_valores_ausentes` (lines 80-104): drop columns
with missing fraction strictly above 0.95, impute numeric columns with
their median, impute object columns with the sentinel. -/
def tratarValoresAusentes (df : Df) : Df :=
  imputeAllObj (imputeAllNum (dropNearEmpty df))

/-! ### Stage 4: deduplication (`remover_duplicatas`, lines 106-113) -/

/-- `DataCleaner.remover_duplicatas`: exact duplicate rows removed,
keep-first. -/
def removerDuplicatas (df : Df) : Df :=
  { df with rows := dedupKeepFirst df.rows }

/-! ### Stage 5: geographic correction
(`corrigir_coordenadas_geograficas`, lines 115-134) -/

/-- Lower latitude bound (line 127). -/
def latMin : Q := ⟨-35, 1⟩
/-- Upper latitude bound (line 127). -/
def latMax : Q := ⟨5, 1⟩
/-- Lower longitude bound (line 131). -/
def lonMin : Q := ⟨-75, 1⟩
/-- Upper longitude bound (line 131). -/
def lonMax : Q := ⟨-30, 1⟩

/-- Decimal-number parser for `pandas.to_numeric`: optional sign,
digits, optional fractional part. -/
def parseQ (s : String) : Option Q :=
  let (sign, body) :=
    match s.data with
    | '-' :: rest => ((-1 : Int), rest)
    | '+' :: rest => ((1 : Int), rest)
    | cs => ((1 : Int), cs)
  match (String.mk body).splitOn "." with
  | [ip] => (parseDigits ip.data).map (fun n => Q.mk' (sign * n) 1)
  | [ip, fp] =>
    if ip.data.isEmpty then
      (parseDigits fp.data).map (fun f => Q.mk' (sign * f) (10 ^ fp.length))
    else
      match parseDigits ip.data, parseDigits fp.data with
      | some n, some f => some (Q.mk' (sign * (n * 10 ^ fp.length + f)) (10 ^ fp.length))
      | _, _ => none
  | _ => none

/-- Model of lines 121-122 on one cell: `astype(str)`, decimal comma to
point, `to_numeric(..., errors="coerce")`.  For a numeric cell the
string round-trip is exact in pandas, so the composite is the identity;
missing values and timestamps coerce to NaN. -/
def coerceGeoCell (v : Value) : Value :=
  match v with
  | .num q => .num q
  | .str s =>
    match parseQ (s.replace "," ".") with
    | some q => .num q
    | none => .na
  | _ => .na

/-- Model of lines 127-132 on one cell: values outside `[lo, hi]` (and
NaN, whose comparisons are false) are set to NaN. -/
def maskRangeCell (lo hi : Q) (v : Value) : Value :=
  match v with
  | .num q => if Q.bLe lo q && Q.bLe q hi then .num q else .na
  | _ => .na

/-- One iteration of the loop of lines 118-132: when the named column
exists, convert it to numeric (lines 121-122) and then null the values
outside `[lo, hi]` (lines 125-132). -/
def geoFixCol (df : Df) (name : String) (lo hi : Q) : Df :=
  match df.colIdx name with
  | some j => (df.mapColAt j coerceGeoCell).mapColAt j (maskRangeCell lo hi)
  | none => df

/-- `DataCleaner.corrigir_coordenadas_geograficas` (lines 115-134):
the loop body applied to the latitude column, then the longitude
column, with their respective bounds. -/
def corrigirCoordenadasGeograficas (df : Df) : Df :=
  geoFixCol (geoFixCol df colunaLatitude latMin latMax) colunaLongitude lonMin lonMax

/-! ### The full pipeline (`executar`, lines 136-156) -/

/-- `DataCleaner.executar`: the five stages in their fixed order. -/
def executar (df : Df) : Df :=
  corrigirCoordenadasGeograficas
    (removerDuplicatas
      (tratarValoresAusentes
        (processarDatas
          (padronizarColunas df))))

/-! ## Ingestion fallbacks (`data_cleaner._carregar_entrada`, lines 209-238)

The file system and the CSV parser are abstracted into oracles: `attempt
codif sep` is the outcome of `pd.read_csv(caminho, sep=sep,
encoding=codif, engine="python")` and `attemptSkip` the outcome of the
same call with `on_bad_lines="skip"`.  Parse failures are identified by
an abstract `ParseErr` value so that "which exception propagates" is
observable. -/

/-- Abstract identity of a parse failure. -/
abbrev ParseErr := Nat

deriving instance DecidableEq for Except

/-- `candidatos_codificacao` (line 216). -/
def buildCodifs (codificacao : Option String) : List String :=
  match codificacao with
  | some c => [c]
  | none => ["utf-8", "latin-1"]

/-- `candidatos_separador` (lines 217-222): the explicit separator, then
each of detected, `;`, `,`, tab, `|`, `None` that is not already
present.  `none` is the "let the parser infer" candidate. -/
def buildSeps (separador : Option String) (detectado : Option String) : List (Option String) :=
  let base : List (Option String) := match separador with
    | some s => [some s]
    | none => []
  [detectado, some ";", some ",", some "\t", some "|", none].foldl
    (fun acc d => if d ∈ acc then acc else acc ++ [d]) base

/-- The inner loop of lines 225-231 for one encoding: try each
separator, recording the most recent failure in `ultimo`. -/
def innerSweep (attempt : String → Option String → Except ParseErr Df) (c : String) :
    List (Option String) → Option ParseErr → Option Df × Option ParseErr
  | [], u => (none, u)
  | s :: rest, u =>
    match attempt c s with
    | .ok df => (some df, u)
    | .error e => innerSweep attempt c rest (some e)

/-- The outer loop of lines 225-231 over the encodings. -/
def outerSweep (attempt : String → Option String → Except ParseErr Df) :
    List String → List (Option String) → Option ParseErr → Option Df × Option ParseErr
  | [], _, u => (none, u)
  | c :: cs, seps, u =>
    match innerSweep attempt c seps u with
    | (some df, u') => (some df, u')
    | (none, u') => outerSweep attempt cs seps u'

/-- `_carregar_entrada` (lines 209-238), CSV path: sweep every
(encoding, separator) candidate pair, else retry once skipping bad
lines with the first separator candidate and the last encoding
candidate (line 235), else raise the recorded sweep failure if any,
otherwise the retry's own failure (line 238). -/
def carregarEntrada (attempt attemptSkip : String → Option String → Except ParseErr Df)
    (codificacao : Option String) (separador : Option String)
    (detectado : Option String) : Except ParseErr Df :=
  let codifs := buildCodifs codificacao
  let seps := buildSeps separador detectado
  match outerSweep attempt codifs seps none with
  | (some df, _) => .ok df
  | (none, ultimo) =>
    match attemptSkip (codifs.getLastD "utf-8") (seps.headD none) with
    | .ok df => .ok df
    | .error e => .error (ultimo.getD e)

/-! ## Multi-year loading (`data_loader.carregar_multiplos_anos`,
lines 30-70)

The file system is abstracted as `fsLoad : Int → Option Df`: the table
loaded from `datatran{ano}.csv` when that file exists, `none` when it
does not (the `caminho_arquivo.exists()` test of line 48). -/

/-- `dados_ano['ano'] = ano` (line 57): overwrite or append a constant
column. -/
def setColConst (df : Df) (name : String) (v : Value) : Df :=
  df.setCol name (df.rows.map (fun _ => v))

/-- Tag a loaded year table with its year. -/
def tagAno (df : Df) (ano : Int) : Df :=
  setColConst df "ano" (.num (Q.ofInt ano))

/-- Column union in order of first appearance (`pd.concat` alignment). -/
def unionCols (dfs : List Df) : List String :=
  dedupKeepFirst (dfs.flatMap Df.cols)

/-- One row re-expressed over the union schema, absent columns filled
with NaN. -/
def reindexRow (df : Df) (allCols : List String) (r : List Value) : List Value :=
  allCols.map (fun c =>
    match df.colIdx c with
    | some j => r.getD j Value.na
    | none => Value.na)

/-- `pd.concat(dataframes_anos, ignore_index=True)` (line 67): rows of
each frame in order, over the union of the schemas. -/
def concatDfs (dfs : List Df) : Df :=
  let cs := unionCols dfs
  { cols := cs, rows := dfs.flatMap (fun df => df.rows.map (reindexRow df cs)) }

/-- The per-year tables found for a request, already tagged, in request
order (lines 46-61). -/
def foundTagged (fsLoad : Int → Option Df) (anos : List Int) : List Df :=
  anos.filterMap (fun a => (fsLoad a).map (fun df => tagAno df a))

/-- `DataLoader.carregar_multiplos_anos` (lines 30-70): absent years are
skipped (with a warning print, not modelled), found tables are tagged
and concatenated, and only an entirely empty result raises. -/
def carregarMultiplosAnos (fsLoad : Int → Option Df) (anos : List Int) : Except String Df :=
  let dfsAnos := foundTagged fsLoad anos
  if dfsAnos.isEmpty then .error "Nenhum arquivo de dados encontrado"
  else .ok (concatDfs dfsAnos)

/-! ## Severity classifier (`ml_classifier.py`) -/

/-- `AccidentSeverityClassifier.features_categoricas` (lines 18-22). -/
def featuresCategoricas : List String :=
  ["uf", "tipo_acidente", "causa_acidente", "tipo_pista",
   "tracado_via", "condicao_metereologica", "fase_dia",
   "sentido_via", "dia_semana_nome", "periodo_dia"]

/-- `AccidentSeverityClassifier.target` (line 27). -/
def targetCol : String := "classificacao_acidente"

/-! ### Feature derivation (`create_features`, lines 29-39) -/

/-- `df['dia_semana_num'].isin([5, 6]).astype(int)` on one cell
(`isin` is false for NaN and for non-numeric cells). -/
def ehFimSemanaCell (v : Value) : Value :=
  match v with
  | .num q => if q = Q.ofInt 5 ∨ q = Q.ofInt 6 then .num ⟨1, 1⟩ else .num ⟨0, 1⟩
  | _ => .num ⟨0, 1⟩

/-- `((df['hora'] >= 18) | (df['hora'] < 6)).astype(int)` on one cell
(comparisons against NaN are false). -/
def ehNoiteCell (v : Value) : Value :=
  match v with
  | .num q => if Q.bLe ⟨18, 1⟩ q || Q.bLt q ⟨6, 1⟩ then .num ⟨1, 1⟩ else .num ⟨0, 1⟩
  | _ => .num ⟨0, 1⟩

/-- `pd.cut(df['hora'], bins=[0, 6, 12, 18, 24], labels=[...],
include_lowest=True)` on one cell.  `pd.cut` buckets are right-closed
(`(0,6], (6,12], (12,18], (18,24]`), with `include_lowest` closing only
the very first bucket to `[0,6]`; values outside `[0,24]` and
non-numeric cells yield NaN. -/
def periodoDiaCell (v : Value) : Value :=
  match v with
  | .num q =>
    if Q.bLt q ⟨0, 1⟩ then .na
    else if Q.bLe q ⟨6, 1⟩ then .str "Madrugada"
    else if Q.bLe q ⟨12, 1⟩ then .str "Manhã"
    else if Q.bLe q ⟨18, 1⟩ then .str "Tarde"
    else if Q.bLe q ⟨24, 1⟩ then .str "Noite"
    else .na
  | _ => .na

/-- `AccidentSeverityClassifier.create_features` (lines 29-39): derives
`eh_fim_semana`, `eh_noite` and `periodo_dia`; accessing a missing
`dia_semana_num` or `hora` column raises (`KeyError`). -/
def createFeatures (df : Df) : Except String Df :=
  match df.colIdx "dia_semana_num" with
  | none => .error "KeyError: dia_semana_num"
  | some jw =>
    match df.colIdx "hora" with
    | none => .error "KeyError: hora"
    | some jh =>
      let horaVals := df.colVals jh
      let df1 := df.setCol "eh_fim_semana" ((df.colVals jw).map ehFimSemanaCell)
      let df2 := df1.setCol "eh_noite" (horaVals.map ehNoiteCell)
      .ok (df2.setCol "periodo_dia" (horaVals.map periodoDiaCell))

/-! ### Categorical encoding (`encode_features`, lines 41-69) -/

/-- Lexicographic codepoint comparison on character lists (the order
`np.unique` sorts strings by). -/
def charsLe : List Char → List Char → Bool
  | [], _ => true
  | _ :: _, [] => false
  | a :: as, b :: bs =>
    if a.toNat < b.toNat then true
    else if b.toNat < a.toNat then false
    else charsLe as bs

/-- Lexicographic string comparison by codepoints. -/
def strLe (a b : String) : Bool := charsLe a.data b.data

/-- `sklearn.LabelEncoder.fit`: the sorted distinct values. -/
def fitClasses (xs : List String) : List String :=
  sortBy strLe (dedupKeepFirst xs)

/-- Position of a value in the fitted class list (`transform` of a
present value). -/
def idxOfStr : List String → String → Nat
  | [], _ => 0
  | c :: cs, x => if c = x then 0 else idxOfStr cs x + 1

/-- The apply-mode lambda of lines 54 and 66:
`le.transform([x])[0] if x in le.classes_ else -1` — a present value
maps to its fitted code, an unseen one to the reserved `-1`, and the
function is total (never raises). -/
def oovApply (cls : List String) (x : String) : Int :=
  if x ∈ cls then (idxOfStr cls x : Int) else -1

/-- `LabelEncoder.fit_transform` (lines 48 and 60): the fitted class
list together with the per-occurrence codes. -/
def fitTransform (xs : List String) : List String × List Int :=
  let cls := fitClasses xs
  (cls, xs.map (fun x => (idxOfStr cls x : Int)))

/-- The encoder state owned by a classifier instance:
`self.label_encoders` and `self.target_encoder`. -/
structure EncState where
  labelEncoders : List (String × List String)
  targetEncoder : Option (List String)
  deriving DecidableEq, Repr

/-- Lookup of `self.label_encoders[col]`. -/
def lookupEnc (st : List (String × List String)) (c : String) : Option (List String) :=
  (st.find? (fun p => p.1 = c)).map (·.2)

/-- `self.label_encoders[col] = le`: replace or append. -/
def insertEnc (st : List (String × List String)) (c : String) (cls : List String) :
    List (String × List String) :=
  if (st.find? (fun p => p.1 = c)).isSome then
    st.map (fun p => if p.1 = c then (c, cls) else p)
  else st ++ [(c, cls)]

/-- `AccidentSeverityClassifier.encode_features` (lines 41-69): encode
each configured categorical column present in the frame (fitting a new
encoder or applying a stored one), then the target column into
`target_encoded`. -/
def encodeFeatures (st : EncState) (df : Df) (fit : Bool) : EncState × Df :=
  let step := fun (acc : EncState × Df) (col : String) =>
    match acc.2.colIdx col with
    | some j =>
      if fit then
        let cls := fitClasses ((acc.2.colVals j).map valueToStr)
        ({ acc.1 with labelEncoders := insertEnc acc.1.labelEncoders col cls },
         acc.2.mapColAt j (fun v => .num (Q.ofInt (idxOfStr cls (valueToStr v)))))
      else
        match lookupEnc acc.1.labelEncoders col with
        | some cls =>
          (acc.1, acc.2.mapColAt j (fun v => .num (Q.ofInt (oovApply cls (valueToStr v)))))
        | none => acc
    | none => acc
  let acc1 := featuresCategoricas.foldl step (st, df)
  match acc1.2.colIdx targetCol with
  | some j =>
    let strs := (acc1.2.colVals j).map valueToStr
    if fit then
      let cls := fitClasses strs
      ({ acc1.1 with targetEncoder := some cls },
       acc1.2.setCol "target_encoded" (strs.map (fun x => .num (Q.ofInt (idxOfStr cls x)))))
    else
      match acc1.1.targetEncoder with
      | some cls =>
        (acc1.1, acc1.2.setCol "target_encoded" (strs.map (fun x => .num (Q.ofInt (oovApply cls x)))))
      | none => acc1
  | none => acc1

/-! ### Training dispatch (`train`, lines 99-154)

The numeric work inside `train` (actual encoder/scaler statistics,
the randomized split, the ensemble fit) does not affect which model
identifiers are accepted, so the embedding records the *order of
effects* of `train` as an event trace: which stateful steps have run
before control reaches the `model_type` dispatch of lines 108-128. -/

/-- The stateful steps of `train`, in source order. -/
inductive TrainEvent where
  | filterTargetRows : TrainEvent
  | fitEncodersScaler : TrainEvent
  | splitTrainTest : TrainEvent
  | constructModel : String → TrainEvent
  | fitModel : TrainEvent
  | evaluate : TrainEvent
  deriving DecidableEq, Repr

/-- The two recognized algorithm identifiers (lines 108 and 118). -/
def supportedModels : List String := ["random_forest", "gradient_boosting"]

/-- `AccidentSeverityClassifier.train` as an event trace: line 100
filters rows with a missing target, line 102 (`prepare_data(fit=True)`)
fits the label encoders (lines 47-49, 59-62) and the scaler (line 93),
lines 104-106 split, and only then lines 108-128 dispatch on
`model_type`, raising `ValueError` for an unrecognized identifier
before any model is constructed or fitted. -/
def trainRun (modelType : String) : List TrainEvent × Except String Unit :=
  let pre : List TrainEvent := [.filterTargetRows, .fitEncodersScaler, .splitTrainTest]
  if modelType = "random_forest" then
    (pre ++ [.constructModel modelType, .fitModel, .evaluate], .ok ())
  else if modelType = "gradient_boosting" then
    (pre ++ [.constructModel modelType, .fitModel, .evaluate], .ok ())
  else
    (pre, .error ("Model type '" ++ modelType ++ "' not supported"))

/-! ## Well-formedness, invariants and concrete probe inputs -/

/-- Well-formed frame: every row has exactly one cell per column. -/
def Df.WF (df : Df) : Prop := ∀ r ∈ df.rows, r.length = df.cols.length

instance (df : Df) : Decidable df.WF := List.decidableBAll _ _

/-- A one-row frame carrying an `hora` value and a `dia_semana_num`
value, the two columns `create_features` reads. -/
def horaProbe (h : Nat) : Df :=
  { cols := ["hora", "dia_semana_num"],
    rows := [[.num ⟨(h : Int), 1⟩, .num ⟨0, 1⟩]] }

/-- The `periodo_dia` column `create_features` derives for hour `h`. -/
def periodoProbe (h : Nat) : List Value :=
  match createFeatures (horaProbe h) with
  | .ok d => d.getCol "periodo_dia"
  | .error _ => []

/-- The time-of-day bucket the code actually assigns to an integer hour:
upper bounds inclusive, with `include_lowest` also closing the lower
end of the first bucket. -/
def periodoLabel (h : Nat) : String :=
  if h ≤ 6 then "Madrugada"
  else if h ≤ 12 then "Manhã"
  else if h ≤ 18 then "Tarde"
  else "Noite"

/-- Latitude column with the out-of-range value `10.5` above the
in-range value `-22.9` (the spec's own probe values). -/
def dfLatPair : Df :=
  { cols := ["latitude"], rows := [[.num ⟨21, 2⟩], [.num ⟨-229, 10⟩]] }

/-- One-row latitude column holding only the out-of-range `10.5`. -/
def dfLatSingle : Df :=
  { cols := ["latitude"], rows := [[.num ⟨21, 2⟩]] }

/-- Coordinate probe: latitudes `10.5`, `-22.9` and longitudes `-150`,
`-45`. -/
def dfGeoProbe : Df :=
  { cols := ["latitude", "longitude"],
    rows := [[.num ⟨21, 2⟩, .num ⟨-150, 1⟩], [.num ⟨-229, 10⟩, .num ⟨-45, 1⟩]] }

/-- The error identity of a failed parse attempt (`0` for a success;
only applied to failures). -/
def errValOf (x : Except ParseErr Df) : ParseErr :=
  match x with
  | .error e => e
  | .ok _ => 0

/-- A parse oracle on which every (encoding, separator) attempt fails,
with a distinct error identity per candidate pair. -/
def attAllFail : String → Option String → Except ParseErr Df := fun c s =>
  .error ((if c = "utf-8" then 10 else 20) +
    (if s = none then 0
     else if s = some ";" then 1
     else if s = some "," then 2
     else if s = some "\t" then 3
     else 4))

/-- A lenient-retry oracle that also fails, with its own error identity. -/
def skipAllFail : String → Option String → Except ParseErr Df := fun _ _ => .error 99

/-- Year table used for the multi-year probe (2021). -/
def dfYear2021 : Df :=
  { cols := ["uf"], rows := [[.str "SP"], [.str "RJ"]] }

/-- Year table used for the multi-year probe (2023). -/
def dfYear2023 : Df :=
  { cols := ["uf"], rows := [[.str "MG"]] }

/-- Abstract file system for the multi-year probe: `datatran2021.csv`
and `datatran2023.csv` exist, `datatran2022.csv` does not. -/
def fsYears : Int → Option Df := fun a =>
  if a = 2021 then some dfYear2021
  else if a = 2023 then some dfYear2023
  else none

/-- The combined table expected from merging years 2021 and 2023 when
2022's file is absent. -/
def dfMerged : Df :=
  { cols := ["uf", "ano"],
    rows := [[.str "SP", .num ⟨2021, 1⟩], [.str "RJ", .num ⟨2021, 1⟩],
             [.str "MG", .num ⟨2023, 1⟩]] }

/-- In-range test for a coordinate cell. -/
def geoInRangeCell (lo hi : Q) (v : Value) : Bool :=
  match v with
  | .num q => Q.bLe lo q && Q.bLe q hi
  | _ => false

/-- The candidate temporal column names whose presence makes
`processar_datas` rewrite the frame. -/
def temporalNames : List String :=
  ["data_inversa", "date", "data_ocorrencia", "data", "data_hora_completa"]

/-- The cleaned-table invariant: normalized column names, none of the
raw temporal trigger columns, no missing values, no duplicate rows, and
coordinate columns (when present) numeric and inside the Brazil bounds.
`executar` is the identity exactly on such tables; its own output
satisfies this whenever geographic correction nulled nothing. -/
def cleanedInvariant (df : Df) : Prop :=
  df.WF
  ∧ df.cols.map normalizeName = df.cols
  ∧ (∀ c ∈ temporalNames, c ∉ df.cols)
  ∧ (∀ r ∈ df.rows, ∀ v ∈ r, v.isNa = false)
  ∧ df.rows.Nodup
  ∧ (df.getCol "latitude").all (geoInRangeCell latMin latMax) = true
  ∧ (df.getCol "longitude").all (geoInRangeCell lonMin lonMax) = true

instance (df : Df) : Decidable (cleanedInvariant df) := by
  unfold cleanedInvariant
  infer_instance

/-- A table satisfying `cleanedInvariant` (witness input). -/
def dfCleanedProbe : Df :=
  { cols := ["uf", "latitude"], rows := [[.str "SP", .num ⟨-229, 10⟩]] }

/-- Probe for the amended C2: a string column next to an out-of-range
latitude. -/
def dfCounterC2w : Df :=
  { cols := ["uf", "latitude"], rows := [[.str "SP", .num ⟨21, 2⟩]] }

/-- Boundary probe for near-empty-column removal: 20 rows; column `x`
has exactly 19 missing values (95%), column `y` has 20 (100%). -/
def dfBoundary : Df :=
  { cols := ["x", "y"],
    rows := List.replicate 19 [Value.na, Value.na] ++ [[.num ⟨1, 1⟩, .na]] }

/-! ## Basic facts about the table model -/

theorem getD_set_self {l : List α} {j : Nat} {x d : α} (h : j < l.length) :
    (l.set j x).getD j d = x := by
  simp [List.getD_eq_getElem?_getD, List.getElem?_set_self', List.getElem?_eq_getElem h]

theorem getD_set_ne {l : List α} {j k : Nat} {x d : α} (h : j ≠ k) :
    (l.set k x).getD j d = l.getD j d := by
  simp [List.getD_eq_getElem?_getD, List.getElem?_set_ne (fun hkj => h hkj.symm)]

theorem set_getD_self {l : List α} {j : Nat} {d : α} : l.set j (l.getD j d) = l := by
  by_cases h : j < l.length
  · apply List.ext_getElem?
    intro k
    by_cases hk : k = j
    · subst hk
      simp [List.getElem?_set_self', List.getD_eq_getElem?_getD, List.getElem?_eq_getElem h]
    · simp [List.getElem?_set_ne (Ne.symm hk)]
  · exact List.set_eq_of_length_le (Nat.le_of_not_lt h)

namespace Df

theorem cols_mapColAt (df : Df) (j : Nat) (f : Value → Value) :
    (df.mapColAt j f).cols = df.cols := rfl

theorem colIdx_mapColAt (df : Df) (j : Nat) (f : Value → Value) (n : String) :
    (df.mapColAt j f).colIdx n = df.colIdx n := rfl

theorem colIdx_go_lt {n : String} : ∀ {cs : List String} {j : Nat},
    Df.colIdx.go n cs = some j → j < cs.length := by
  intro cs
  induction cs with
  | nil => intro j h; simp [Df.colIdx.go] at h
  | cons c cs ih =>
    intro j h
    simp only [Df.colIdx.go] at h
    by_cases hc : c = n
    · simp [hc] at h
      simp [← h]
    · simp only [hc, if_false] at h
      match hgo : Df.colIdx.go n cs with
      | none => rw [hgo] at h; simp at h
      | some k =>
        rw [hgo] at h
        simp at h
        have := ih hgo
        simp [← h, List.length_cons]
        omega

theorem colIdx_go_getD {n : String} : ∀ {cs : List String} {j : Nat},
    Df.colIdx.go n cs = some j → cs.getD j "" = n := by
  intro cs
  induction cs with
  | nil => intro j h; simp [Df.colIdx.go] at h
  | cons c cs ih =>
    intro j h
    simp only [Df.colIdx.go] at h
    by_cases hc : c = n
    · simp [hc] at h
      simp [← h, List.getD, hc]
    · simp only [hc, if_false] at h
      match hgo : Df.colIdx.go n cs with
      | none => rw [hgo] at h; simp at h
      | some k =>
        rw [hgo] at h
        simp at h
        have := ih hgo
        simp [← h, List.getD]
        simpa [List.getD] using this

theorem colIdx_go_none {n : String} : ∀ {cs : List String},
    n ∉ cs → Df.colIdx.go n cs = none := by
  intro cs
  induction cs with
  | nil => intro _; rfl
  | cons c cs ih =>
    intro h
    simp only [List.mem_cons, not_or] at h
    simp only [Df.colIdx.go, ih h.2, Option.map_none']
    rw [if_neg (fun hc => h.1 hc.symm)]

theorem colIdx_lt (df : Df) {n : String} {j : Nat} (h : df.colIdx n = some j) :
    j < df.cols.length := colIdx_go_lt h

theorem colIdx_getD (df : Df) {n : String} {j : Nat} (h : df.colIdx n = some j) :
    df.cols.getD j "" = n := colIdx_go_getD h

theorem colIdx_none (df : Df) {n : String} (h : n ∉ df.cols) :
    df.colIdx n = none := colIdx_go_none h

theorem colVals_mapColAt_self {df : Df} {j : Nat} {f : Value → Value}
    (hwf : df.WF) (hj : j < df.cols.length) :
    (df.mapColAt j f).colVals j = (df.colVals j).map f := by
  simp only [Df.colVals, Df.mapColAt, List.map_map]
  refine List.map_congr_left (fun r hr => ?_)
  have hlen : j < r.length := by rw [hwf r hr]; exact hj
  have := getD_set_self (l := r) (j := j) (x := f (r.getD j Value.na)) (d := Value.na) hlen
  simpa [List.getD_eq_getElem?_getD] using this

theorem colVals_mapColAt_ne {df : Df} {j k : Nat} {f : Value → Value} (h : j ≠ k) :
    (df.mapColAt k f).colVals j = df.colVals j := by
  simp only [Df.colVals, Df.mapColAt, List.map_map]
  exact List.map_congr_left (fun r _ => getD_set_ne h)

theorem mapColAt_fix {df : Df} {j : Nat} {f : Value → Value}
    (h : ∀ v ∈ df.colVals j, f v = v) : df.mapColAt j f = df := by
  have hrows : df.rows.map (fun r => r.set j (f (r.getD j Value.na))) = df.rows := by
    refine ((List.map_congr_left (fun r hr => ?_)).trans (List.map_id _))
    have hv : r.getD j Value.na ∈ df.colVals j :=
      List.mem_map.mpr ⟨r, hr, rfl⟩
    show r.set j (f (r.getD j Value.na)) = id r
    rw [h _ hv, set_getD_self]
    rfl
  simp only [Df.mapColAt, hrows]

theorem WF_mapColAt {df : Df} {j : Nat} {f : Value → Value} (hwf : df.WF) :
    (df.mapColAt j f).WF := by
  intro r hr
  simp only [Df.mapColAt, List.mem_map] at hr
  obtain ⟨r', hr', rfl⟩ := hr
  simp [List.length_set, hwf r' hr', cols_mapColAt]

theorem length_colVals (df : Df) (j : Nat) : (df.colVals j).length = df.rows.length := by
  simp [Df.colVals]

end Df

theorem mem_insSorted {le : α → α → Bool} {a x : α} :
    ∀ {l : List α}, x ∈ insSorted le a l ↔ x = a ∨ x ∈ l := by
  intro l
  induction l with
  | nil => simp [insSorted]
  | cons b bs ih =>
    simp only [insSorted]
    by_cases hle : le a b
    · rw [if_pos hle]
      simp
    · rw [if_neg hle]
      simp only [List.mem_cons, ih]
      tauto

theorem mem_sortBy {le : α → α → Bool} {x : α} :
    ∀ {l : List α}, x ∈ sortBy le l ↔ x ∈ l := by
  intro l
  induction l with
  | nil => simp [sortBy]
  | cons a as ih => simp [sortBy, mem_insSorted, ih]

theorem mem_dedupKeepFirstAux [DecidableEq α] {x : α} :
    ∀ {l seen : List α}, x ∈ dedupKeepFirstAux seen l ↔ x ∈ l ∧ x ∉ seen := by
  intro l
  induction l with
  | nil => simp [dedupKeepFirstAux]
  | cons a as ih =>
    intro seen
    simp only [dedupKeepFirstAux, List.mem_cons]
    by_cases ha : a ∈ seen
    · rw [if_pos ha, ih]
      constructor
      · exact fun h => ⟨Or.inr h.1, h.2⟩
      · rintro ⟨h1 | h2, hn⟩
        · exact absurd (h1 ▸ ha) hn
        · exact ⟨h2, hn⟩
    · rw [if_neg ha]
      simp only [List.mem_cons, ih, List.mem_cons]
      by_cases hx : x = a
      · simp [hx, ha]
      · simp [hx]

theorem mem_dedupKeepFirst [DecidableEq α] {x : α} {l : List α} :
    x ∈ dedupKeepFirst l ↔ x ∈ l := by
  simp [dedupKeepFirst, mem_dedupKeepFirstAux]

theorem mem_fitClasses {x : String} {xs : List String} (h : x ∈ xs) :
    x ∈ fitClasses xs := by
  simp only [fitClasses, mem_sortBy, mem_dedupKeepFirst]
  exact h

/-! ## C4 — unseen categories map to the reserved code -/

/-- C4: in apply mode (`encode_features` with `fit=False`, lines 53-55
and 65-67), a category value absent from the fitted vocabulary maps to
the single reserved out-of-vocabulary code `-1`; the mapping is a total
function (the `x in le.classes_` guard means `transform` is only called
on present values), so encoding never raises. -/
theorem encode_unseen_maps_to_oov (cls : List String) (x : String) (h : x ∉ cls) :
    oovApply cls x = -1 := by
  simp [oovApply, h]

/-- Witness for C4, the spec's own scenario: fit on `{A, B}`, then
encode `C` in predict mode — the reserved code comes back. -/
theorem encode_unseen_maps_to_oov_witness :
    oovApply (fitClasses ["A", "B"]) "C" = -1 :=
  encode_unseen_maps_to_oov (fitClasses ["A", "B"]) "C" (by decide)

/-! ## C10 — fitted categories keep their fit-time codes -/

/-- C10: a value present in the training column receives, in apply
mode, exactly the code `fit_transform` assigned to its occurrences,
and every fitted code is nonnegative, hence distinct from the reserved
`-1`. -/
theorem encode_apply_agrees_with_fit (xs : List String) (i : Nat) (h : i < xs.length) :
    oovApply (fitTransform xs).1 (xs.getD i "") = (fitTransform xs).2.getD i 0
    ∧ 0 ≤ (fitTransform xs).2.getD i 0
    ∧ (fitTransform xs).2.getD i 0 ≠ -1 := by
  have hmem : xs.getD i "" ∈ xs := by
    rw [List.getD_eq_getElem?_getD, List.getElem?_eq_getElem h]
    exact List.getElem_mem h
  have hcls : xs.getD i "" ∈ fitClasses xs := mem_fitClasses hmem
  have hcode : (fitTransform xs).2.getD i 0 =
      (idxOfStr (fitClasses xs) (xs.getD i "") : Int) := by
    simp [fitTransform, List.getD_eq_getElem?_getD, List.getElem?_map,
      List.getElem?_eq_getElem h]
  have hcls' := hcls
  simp only [List.getD_eq_getElem?_getD] at hcls'
  refine ⟨?_, ?_, ?_⟩
  · rw [hcode]
    simp [oovApply, fitTransform, hcls, hcls']
  · rw [hcode]
    exact Int.natCast_nonneg _
  · rw [hcode]
    omega

/-- Witness for C10 at a concrete training column. -/
theorem encode_apply_agrees_with_fit_witness :
    oovApply (fitTransform ["B", "A", "B"]).1 (["B", "A", "B"].getD 0 "") =
      (fitTransform ["B", "A", "B"]).2.getD 0 0
    ∧ 0 ≤ (fitTransform ["B", "A", "B"]).2.getD 0 0
    ∧ (fitTransform ["B", "A", "B"]).2.getD 0 0 ≠ -1 :=
  encode_apply_agrees_with_fit ["B", "A", "B"] 0 (by decide)

/-! ## C7 — unsupported model identifier -/

/-- C7 counterexample: for the unrecognized identifier `svm`, `train`
does raise, but label encoders and the scaler have already been fitted
by `prepare_data` (line 102) before the dispatch of lines 108-128 —
the error is not raised "before any fitting work begins". -/
theorem train_unsupported_fits_scaler_first :
    (trainRun "svm").2.isOk = false
    ∧ TrainEvent.fitEncodersScaler ∈ (trainRun "svm").1 := by
  decide

/-- C7 as amended: an unrecognized model identifier raises the
unsupported-model `ValueError`, after feature preparation (which fits
the encoders and the scaler) and the train/test split, but before the
ensemble model is constructed or fitted. -/
theorem train_unsupported_raises (mt : String) (h : mt ∉ supportedModels) :
    (trainRun mt).2 = .error ("Model type '" ++ mt ++ "' not supported")
    ∧ (trainRun mt).1 = [.filterTargetRows, .fitEncodersScaler, .splitTrainTest]
    ∧ TrainEvent.fitModel ∉ (trainRun mt).1
    ∧ TrainEvent.constructModel mt ∉ (trainRun mt).1 := by
  simp only [supportedModels, List.mem_cons, not_or, List.not_mem_nil] at h
  obtain ⟨h1, h2, -⟩ := h
  refine ⟨?_, ?_, ?_, ?_⟩ <;> simp [trainRun, h1, h2]

/-- Witness for the amended C7 at the identifier `svm`. -/
theorem train_unsupported_raises_witness :
    (trainRun "svm").2 = .error ("Model type '" ++ "svm" ++ "' not supported")
    ∧ (trainRun "svm").1 = [.filterTargetRows, .fitEncodersScaler, .splitTrainTest]
    ∧ TrainEvent.fitModel ∉ (trainRun "svm").1
    ∧ TrainEvent.constructModel "svm" ∉ (trainRun "svm").1 :=
  train_unsupported_raises "svm" (by decide)

/-! ## C3 — time-of-day buckets -/

/-- C3 counterexample: at hour 6 the code assigns `Madrugada` (dawn),
not `Manhã` (morning) as the claimed `[6,12) = morning` boundary
demands — `pd.cut` buckets are right-closed, not left-closed. -/
theorem periodo_hour6_is_madrugada :
    periodoProbe 6 = [Value.str "Madrugada"]
    ∧ ("Madrugada" : String) ≠ "Manhã" := by
  decide

/-- C3 as amended: for integer hours `0..23`, `create_features` assigns
`Madrugada` iff `0 ≤ h ≤ 6`, `Manhã` iff `6 < h ≤ 12`, `Tarde` iff
`12 < h ≤ 18` and `Noite` iff `18 < h ≤ 23`: open-lower/closed-upper
buckets, with the absolute lowest bound inclusive. -/
theorem create_features_periodo_buckets (h : Nat) (hlt : h < 24) :
    periodoProbe h = [Value.str (periodoLabel h)] := by
  revert hlt
  revert h
  decide

/-- Witness for the amended C3 at hour 13 (an afternoon hour). -/
theorem create_features_periodo_buckets_witness :
    periodoProbe 13 = [Value.str "Tarde"] :=
  (create_features_periodo_buckets 13 (by decide)).trans (by decide)

/-! ## C5 — CSV fallback exhaustion -/

theorem innerSweep_cons {attempt : String → Option String → Except ParseErr Df}
    {c : String} {s : Option String} {rest : List (Option String)} {u : Option ParseErr} :
    innerSweep attempt c (s :: rest) u =
      match attempt c s with
      | .ok df => (some df, u)
      | .error e => innerSweep attempt c rest (some e) := rfl

theorem outerSweep_cons {attempt : String → Option String → Except ParseErr Df}
    {c : String} {cs : List String} {seps : List (Option String)} {u : Option ParseErr} :
    outerSweep attempt (c :: cs) seps u =
      match innerSweep attempt c seps u with
      | (some df, u2) => (some df, u2)
      | (none, u2) => outerSweep attempt cs seps u2 := rfl

theorem innerSweep_all_fail {attempt : String → Option String → Except ParseErr Df}
    {c : String} :
    ∀ {rest : List (Option String)} (s : Option String) (u : Option ParseErr),
    (∀ t ∈ s :: rest, (attempt c t).isOk = false) →
    innerSweep attempt c (s :: rest) u =
      (none, some (errValOf (attempt c (rest.getLastD s)))) := by
  intro rest
  induction rest with
  | nil =>
    intro s u h
    have hs := h s (by simp)
    match hat : attempt c s with
    | .ok df => rw [hat] at hs; simp [Except.isOk, Except.toBool] at hs
    | .error e => rw [innerSweep_cons, hat]; rfl
  | cons t ts ih =>
    intro s u h
    have hs := h s (by simp)
    match hat : attempt c s with
    | .ok df => rw [hat] at hs; simp [Except.isOk, Except.toBool] at hs
    | .error e =>
      rw [innerSweep_cons, hat]
      show innerSweep attempt c (t :: ts) (some e) = _
      rw [ih t (some e) (fun t2 ht2 => h t2 (by simp only [List.mem_cons] at ht2 ⊢; tauto))]
      rw [List.getLastD_cons]

theorem outerSweep_all_fail {attempt : String → Option String → Except ParseErr Df}
    {s0 : Option String} {rest : List (Option String)} :
    ∀ {cs : List String} (c : String) (u : Option ParseErr),
    (∀ c2 ∈ c :: cs, ∀ s ∈ s0 :: rest, (attempt c2 s).isOk = false) →
    outerSweep attempt (c :: cs) (s0 :: rest) u =
      (none, some (errValOf (attempt (cs.getLastD c) ((s0 :: rest).getLastD none)))) := by
  intro cs
  induction cs with
  | nil =>
    intro c u h
    rw [outerSweep_cons, innerSweep_all_fail s0 u (h c (by simp))]
    rw [List.getLastD_cons]
    rfl
  | cons c2 cs2 ih =>
    intro c u h
    rw [outerSweep_cons, innerSweep_all_fail s0 u (h c (by simp))]
    show outerSweep attempt (c2 :: cs2) (s0 :: rest) _ = _
    rw [ih c2 _ (fun c3 hc3 s hs => h c3 (by simp only [List.mem_cons] at hc3 ⊢; tauto) s hs)]
    rw [List.getLastD_cons, List.getLastD_cons]

theorem foldl_ne_nil_of_step {α : Type _} {β : Type _} {step : List α → β → List α}
    (hstep : ∀ acc d, acc ≠ [] → step acc d ≠ []) :
    ∀ (l : List β) (acc : List α), acc ≠ [] → l.foldl step acc ≠ [] := by
  intro l
  induction l with
  | nil => exact fun acc h => h
  | cons a as ih =>
    intro acc h
    rw [List.foldl_cons]
    exact ih _ (hstep acc a h)

theorem buildSeps_ne_nil (sep det : Option String) : buildSeps sep det ≠ [] := by
  unfold buildSeps
  cases sep with
  | some s =>
    show List.foldl _ [some s] [det, some ";", some ",", some "\t", some "|", none] ≠ []
    refine foldl_ne_nil_of_step ?_ _ _ (by simp)
    intro acc d h
    split
    · exact h
    · simp
  | none =>
    show List.foldl _ [] [det, some ";", some ",", some "\t", some "|", none] ≠ []
    rw [List.foldl_cons, if_neg (List.not_mem_nil det), List.nil_append]
    refine foldl_ne_nil_of_step ?_ _ _ (by simp)
    intro acc d h
    split
    · exact h
    · simp

/-- C5 as amended: when every (encoding, separator) candidate pair
fails to parse, `_carregar_entrada` retries once skipping bad lines
with the *last* encoding candidate and the *first* separator candidate
(line 235); if that retry also fails, the exception propagated is the
*most recent* failure recorded during the sweep — the failure of the
last (encoding, separator) pair — not the earliest one. -/
theorem carregar_entrada_exhaustion
    (attempt attemptSkip : String → Option String → Except ParseErr Df)
    (cod sep det : Option String)
    (hall : ∀ c ∈ buildCodifs cod, ∀ s ∈ buildSeps sep det, (attempt c s).isOk = false) :
    carregarEntrada attempt attemptSkip cod sep det =
      match attemptSkip ((buildCodifs cod).getLastD "utf-8") ((buildSeps sep det).headD none) with
      | .ok df => .ok df
      | .error _ => .error (errValOf (attempt ((buildCodifs cod).getLastD "utf-8")
          ((buildSeps sep det).getLastD none))) := by
  obtain ⟨c0, cs, hcs⟩ : ∃ c0 cs, buildCodifs cod = c0 :: cs := by
    cases cod <;> exact ⟨_, _, rfl⟩
  obtain ⟨s0, rest, hss⟩ : ∃ s0 rest, buildSeps sep det = s0 :: rest := by
    match h : buildSeps sep det with
    | [] => exact absurd h (buildSeps_ne_nil sep det)
    | s0 :: rest => exact ⟨s0, rest, rfl⟩
  have hbody : carregarEntrada attempt attemptSkip cod sep det =
      match outerSweep attempt (buildCodifs cod) (buildSeps sep det) none with
      | (some df, _) => .ok df
      | (none, ultimo) =>
        match attemptSkip ((buildCodifs cod).getLastD "utf-8") ((buildSeps sep det).headD none) with
        | .ok df => .ok df
        | .error e => .error (ultimo.getD e) := rfl
  rw [hbody, hcs, hss]
  rw [outerSweep_all_fail c0 none (by rw [hcs, hss] at hall; exact hall)]
  simp only [List.getLastD_cons, List.headD_cons]
  cases attemptSkip (cs.getLastD c0) s0 <;> rfl

/-- C5 counterexample: with the default candidate lists, every
candidate pair failing (`attAllFail`, distinct error identities) and
the lenient retry failing too (`skipAllFail`, error 99), the propagated
error is `24` — the failure of the *last* pair (`latin-1`, `|`) — while
the earliest failure of the sweep, the first pair (`utf-8`, inferred
separator), was error `10`.  The claim's "propagates the earliest parse
failure" is false. -/
theorem carregar_entrada_propagates_last_not_earliest :
    carregarEntrada attAllFail skipAllFail none none none = .error 24
    ∧ attAllFail "utf-8" none = .error 10
    ∧ (24 : ParseErr) ≠ 10 := by
  decide

/-! ## C6 — multi-year merge -/

theorem flatMap_filterMap {f : α → Option β} {g : β → List γ} :
    ∀ l : List α, (l.filterMap f).flatMap g =
      l.flatMap (fun a =>
        match f a with
        | some b => g b
        | none => []) := by
  intro l
  induction l with
  | nil => rfl
  | cons a as ih =>
    rw [List.filterMap_cons, List.flatMap_cons]
    cases hf : f a with
    | none => rw [ih]; rfl
    | some b => rw [List.flatMap_cons, ih]

theorem colIdx_go_append_self {n : String} :
    ∀ {cs : List String}, n ∉ cs → Df.colIdx.go n (cs ++ [n]) = some cs.length := by
  intro cs
  induction cs with
  | nil => intro _; simp [Df.colIdx.go]
  | cons c cs ih =>
    intro h
    simp only [List.mem_cons, not_or] at h
    have hc : ¬c = n := fun hc => h.1 hc.symm
    show (if c = n then some 0 else (Df.colIdx.go n (cs ++ [n])).map (· + 1)) =
      some (cs.length + 1)
    rw [if_neg hc, ih h.2]
    rfl

theorem colIdx_go_ne_none {n : String} :
    ∀ {cs : List String}, n ∈ cs → Df.colIdx.go n cs ≠ none := by
  intro cs
  induction cs with
  | nil => simp
  | cons c cs ih =>
    intro h
    simp only [Df.colIdx.go]
    by_cases hc : c = n
    · simp [hc]
    · have hn : n ∈ cs := by
        rcases List.mem_cons.mp h with h1 | h2
        · exact absurd h1.symm hc
        · exact h2
      rw [if_neg hc]
      intro hmap
      exact ih hn (Option.map_eq_none'.mp hmap)

theorem Df.getCol_eq (df : Df) {n : String} {j : Nat} (h : df.colIdx n = some j) :
    df.getCol n = df.colVals j := by
  unfold Df.getCol
  rw [h]

/-- The `ano` column of a tagged year table is constant at the year. -/
theorem getCol_tagAno (t : Df) (a : Int) (hwf : t.WF) :
    Df.getCol (tagAno t a) "ano" =
      List.replicate t.rows.length (Value.num (Q.ofInt a)) := by
  match hidx : t.colIdx "ano" with
  | some j =>
    have hj := t.colIdx_lt hidx
    have htag : tagAno t a =
        { cols := t.cols, rows := t.rows.map (fun r => r.set j (Value.num (Q.ofInt a))) } := by
      simp only [tagAno, setColConst, Df.setCol, hidx]
      rw [List.zipWith_map_right, List.zipWith_same]
    rw [htag]
    have hcolIdx : Df.colIdx
        { cols := t.cols, rows := t.rows.map (fun r => r.set j (Value.num (Q.ofInt a))) }
        "ano" = some j := hidx
    rw [Df.getCol_eq _ hcolIdx]
    unfold Df.colVals
    simp only [List.map_map]
    rw [← List.map_const' t.rows (Value.num (Q.ofInt a))]
    apply List.map_congr_left
    intro r hr
    have hlen : j < r.length := by rw [hwf r hr]; exact hj
    have := getD_set_self (l := r) (j := j) (x := Value.num (Q.ofInt a)) (d := Value.na) hlen
    simpa [Function.comp, List.getD_eq_getElem?_getD] using this
  | none =>
    have hmem : "ano" ∉ t.cols := fun hm => colIdx_go_ne_none hm hidx
    have htag : tagAno t a =
        { cols := t.cols ++ ["ano"],
          rows := t.rows.map (fun r => r ++ [Value.num (Q.ofInt a)]) } := by
      simp only [tagAno, setColConst, Df.setCol, hidx]
      rw [List.zipWith_map_right, List.zipWith_same]
    rw [htag]
    have hcolIdx : Df.colIdx
        { cols := t.cols ++ ["ano"],
          rows := t.rows.map (fun r => r ++ [Value.num (Q.ofInt a)]) }
        "ano" = some t.cols.length := colIdx_go_append_self hmem
    rw [Df.getCol_eq _ hcolIdx]
    unfold Df.colVals
    simp only [List.map_map]
    rw [← List.map_const' t.rows (Value.num (Q.ofInt a))]
    apply List.map_congr_left
    intro r hr
    have hlen : r.length = t.cols.length := hwf r hr
    simp only [Function.comp, List.getD_eq_getElem?_getD]
    rw [List.getElem?_append_right (by omega)]
    simp [hlen]

theorem rows_concat_found (fsLoad : Int → Option Df) (cs : List String) :
    ∀ anos : List Int,
      (anos.filterMap (fun a => (fsLoad a).map (fun df => tagAno df a))).flatMap
        (fun df => df.rows.map (reindexRow df cs)) =
      anos.flatMap (fun a =>
        match fsLoad a with
        | some t => (tagAno t a).rows.map (reindexRow (tagAno t a) cs)
        | none => []) := by
  intro anos
  induction anos with
  | nil => rfl
  | cons a as ih =>
    rw [List.filterMap_cons]
    cases hf : fsLoad a with
    | none =>
      simp only [hf, Option.map_none', List.flatMap_cons]
      rw [ih]
      rfl
    | some t =>
      simp only [hf, Option.map_some', List.flatMap_cons]
      rw [ih]

/-- C6: multi-year loading fails exactly when no year file was found;
otherwise it succeeds, and the combined rows are the found years'
tagged rows in request order, each year contributing its rows in their
original order (re-expressed over the union schema); every tagged year
table carries its year in the `ano` column. -/
theorem carregar_multiplos_anos_spec (fsLoad : Int → Option Df) (anos : List Int) :
    ((carregarMultiplosAnos fsLoad anos).isOk = false ↔ ∀ a ∈ anos, fsLoad a = none)
    ∧ (∀ d, carregarMultiplosAnos fsLoad anos = .ok d →
        d.rows = anos.flatMap (fun a =>
          match fsLoad a with
          | some t => (tagAno t a).rows.map
              (reindexRow (tagAno t a) (unionCols (foundTagged fsLoad anos)))
          | none => []))
    ∧ (∀ (t : Df) (a : Int), t.WF →
        Df.getCol (tagAno t a) "ano" =
          List.replicate t.rows.length (Value.num (Q.ofInt a))) := by
  have hempty : (foundTagged fsLoad anos).isEmpty = true ↔ ∀ a ∈ anos, fsLoad a = none := by
    rw [List.isEmpty_iff]
    unfold foundTagged
    rw [List.filterMap_eq_nil_iff]
    constructor
    · intro h a ha
      exact Option.map_eq_none'.mp (h a ha)
    · intro h a ha
      rw [h a ha]
      rfl
  refine ⟨?_, ?_, fun t a hwf => getCol_tagAno t a hwf⟩
  · unfold carregarMultiplosAnos
    by_cases hh : (foundTagged fsLoad anos).isEmpty
    · rw [if_pos hh]
      simp only [Except.isOk, Except.toBool]
      refine ⟨fun _ => hempty.mp hh, fun _ => ?_⟩
      trivial
    · rw [if_neg hh]
      simp only [Except.isOk, Except.toBool]
      constructor
      · intro hfalse
        exact absurd hfalse (by simp)
      · intro hall
        exact absurd (hempty.mpr hall) hh
  · intro d hd
    unfold carregarMultiplosAnos at hd
    by_cases hh : (foundTagged fsLoad anos).isEmpty
    · rw [if_pos hh] at hd
      exact Except.noConfusion hd
    · rw [if_neg hh] at hd
      injection hd with hd2
      subst hd2
      show (foundTagged fsLoad anos).flatMap
          (fun df => df.rows.map (reindexRow df (unionCols (foundTagged fsLoad anos)))) = _
      exact rows_concat_found fsLoad (unionCols (foundTagged fsLoad anos)) anos

/-- Witness for C6, the spec's own scenario: years `[2021, 2022, 2023]`
with `2022`'s file absent merge into the 2021 and 2023 rows in order,
each tagged with its year; requesting only the absent year fails. -/
theorem carregar_multiplos_anos_spec_witness :
    dfMerged.rows = [2021, 2022, 2023].flatMap (fun a =>
      match fsYears a with
      | some t => (tagAno t a).rows.map
          (reindexRow (tagAno t a) (unionCols (foundTagged fsYears [2021, 2022, 2023])))
      | none => [])
    ∧ Df.getCol (tagAno dfYear2021 2021) "ano" =
        List.replicate dfYear2021.rows.length (Value.num (Q.ofInt 2021))
    ∧ (carregarMultiplosAnos fsYears [2022]).isOk = false :=
  ⟨(carregar_multiplos_anos_spec fsYears [2021, 2022, 2023]).2.1 dfMerged (by decide),
   (carregar_multiplos_anos_spec fsYears [2021, 2022, 2023]).2.2 dfYear2021 2021 (by decide),
   (carregar_multiplos_anos_spec fsYears [2022]).1.mpr (by decide)⟩

/-! ## C9 — near-empty-column removal boundary -/

theorem Q.bLe_eq_not_bLt (a b : Q) : Q.bLe a b = !Q.bLt b a := by
  simp only [Q.bLe, Q.bLt, ← decide_not, decide_eq_decide]
  omega

theorem selectIdxs_range {l : List α} {d : α} :
    selectIdxs (List.range l.length) l d = l := by
  apply List.ext_getElem
  · simp [selectIdxs]
  · intro i h1 h2
    simp [selectIdxs, List.getElem_range, List.getD_eq_getElem?_getD,
      List.getElem?_eq_getElem h2]

theorem cols_imputeNumStep (acc : Df) (j : Nat) : (imputeNumStep acc j).cols = acc.cols := by
  unfold imputeNumStep
  split
  · split <;> rfl
  · rfl

theorem cols_imputeObjStep (acc : Df) (j : Nat) : (imputeObjStep acc j).cols = acc.cols := by
  unfold imputeObjStep
  split <;> rfl

theorem cols_foldl {step : Df → Nat → Df} (hstep : ∀ acc j, (step acc j).cols = acc.cols) :
    ∀ (l : List Nat) (acc : Df), (l.foldl step acc).cols = acc.cols := by
  intro l
  induction l with
  | nil => intro acc; rfl
  | cons a as ih =>
    intro acc
    rw [List.foldl_cons, ih, hstep]

theorem cols_imputeAllNum (df : Df) : (imputeAllNum df).cols = df.cols :=
  cols_foldl cols_imputeNumStep _ _

theorem cols_imputeAllObj (df : Df) : (imputeAllObj df).cols = df.cols :=
  cols_foldl cols_imputeObjStep _ _

/-- C9: `tratar_valores_ausentes` removes exactly the columns whose
missing fraction is strictly greater than 0.95 — the surviving columns
are precisely those with fraction ≤ 0.95, in their original order; in
particular, on the boundary probe the 95%-missing column `x` is
retained while the 100%-missing column `y` is removed. -/
theorem tratar_removes_exactly_above_95 :
    (∀ df : Df, (tratarValoresAusentes df).cols =
      selectIdxs ((List.range df.cols.length).filter
        (fun j => Q.bLe (fracNa (df.colVals j)) q95)) df.cols "")
    ∧ (tratarValoresAusentes dfBoundary).cols = ["x"]
    ∧ Q.bLe (fracNa (dfBoundary.colVals 0)) q95 = true
    ∧ Q.bLt q95 (fracNa (dfBoundary.colVals 1)) = true := by
  refine ⟨fun df => ?_, by decide, by decide, by decide⟩
  unfold tratarValoresAusentes
  rw [cols_imputeAllObj, cols_imputeAllNum]
  unfold dropNearEmpty
  by_cases hrem : ((List.range df.cols.length).filter
      (fun j => Q.bLt q95 (fracNa (df.colVals j)))).isEmpty
  · rw [if_pos hrem]
    have hall : ∀ j ∈ List.range df.cols.length,
        Q.bLe (fracNa (df.colVals j)) q95 = true := by
      intro j hj
      have hnil := List.isEmpty_iff.mp hrem
      have := List.filter_eq_nil_iff.mp hnil j hj
      rw [Q.bLe_eq_not_bLt]
      simpa using this
    rw [List.filter_eq_self.mpr hall, selectIdxs_range]
  · rw [if_neg hrem]
    show selectIdxs _ df.cols "" = selectIdxs _ df.cols ""
    congr 1
    apply List.filter_congr
    intro j _
    rw [Q.bLe_eq_not_bLt]

/-! ## C8 — geographic correction -/

theorem cols_geoFixCol (df : Df) (name : String) (lo hi : Q) :
    (geoFixCol df name lo hi).cols = df.cols := by
  unfold geoFixCol
  split <;> rfl

theorem colIdx_geoFixCol (df : Df) (name n : String) (lo hi : Q) :
    (geoFixCol df name lo hi).colIdx n = df.colIdx n := by
  simp [Df.colIdx, cols_geoFixCol]

theorem WF_geoFixCol {df : Df} {name : String} {lo hi : Q} (hwf : df.WF) :
    (geoFixCol df name lo hi).WF := by
  unfold geoFixCol
  split
  · exact Df.WF_mapColAt (Df.WF_mapColAt hwf)
  · exact hwf

theorem colVals_geoFixCol_self {df : Df} {name : String} {lo hi : Q} {j : Nat}
    (hwf : df.WF) (hj : df.colIdx name = some j) :
    (geoFixCol df name lo hi).colVals j =
      (df.colVals j).map (fun v => maskRangeCell lo hi (coerceGeoCell v)) := by
  unfold geoFixCol
  rw [hj]
  rw [Df.colVals_mapColAt_self (Df.WF_mapColAt hwf) (df.colIdx_lt hj)]
  rw [Df.colVals_mapColAt_self hwf (df.colIdx_lt hj)]
  simp [List.map_map, Function.comp]

theorem colVals_geoFixCol_ne {df : Df} {name : String} {lo hi : Q} {k : Nat}
    (h : ∀ j, df.colIdx name = some j → k ≠ j) :
    (geoFixCol df name lo hi).colVals k = df.colVals k := by
  unfold geoFixCol
  match hidx : df.colIdx name with
  | some j => rw [Df.colVals_mapColAt_ne (h j hidx), Df.colVals_mapColAt_ne (h j hidx)]
  | none => rfl

/-- C8: after `corrigir_coordenadas_geograficas`, every cell of the
latitude (resp. longitude) column is the numeric coercion of the old
cell masked against the fixed bounds −35..5 (resp. −75..−30): an
in-range numeric value is preserved exactly, and an out-of-range value
(or one whose coercion fails) has become missing. -/
theorem corrigir_clamps_coordinates (df : Df) (hwf : df.WF) :
    (∀ j, df.colIdx "latitude" = some j →
      (corrigirCoordenadasGeograficas df).colVals j =
        (df.colVals j).map (fun v => maskRangeCell latMin latMax (coerceGeoCell v)))
    ∧ (∀ j, df.colIdx "longitude" = some j →
      (corrigirCoordenadasGeograficas df).colVals j =
        (df.colVals j).map (fun v => maskRangeCell lonMin lonMax (coerceGeoCell v)))
    ∧ (∀ q, (Q.bLe latMin q && Q.bLe q latMax) = true →
        maskRangeCell latMin latMax (coerceGeoCell (.num q)) = .num q)
    ∧ (∀ q, (Q.bLe latMin q && Q.bLe q latMax) = false →
        maskRangeCell latMin latMax (coerceGeoCell (.num q)) = .na)
    ∧ (∀ q, (Q.bLe lonMin q && Q.bLe q lonMax) = false →
        maskRangeCell lonMin lonMax (coerceGeoCell (.num q)) = .na) := by
  refine ⟨?_, ?_, ?_, ?_, ?_⟩
  · intro j hj
    unfold corrigirCoordenadasGeograficas
    rw [colVals_geoFixCol_ne, colVals_geoFixCol_self hwf (by
      show df.colIdx colunaLatitude = some j
      exact hj)]
    intro k hk
    rw [colIdx_geoFixCol] at hk
    have h1 := df.colIdx_getD hj
    have h2 := df.colIdx_getD hk
    intro hjk
    rw [hjk, h2] at h1
    exact absurd h1 (by decide)
  · intro j hj
    unfold corrigirCoordenadasGeograficas
    rw [colVals_geoFixCol_self (WF_geoFixCol hwf) (by
      rw [colIdx_geoFixCol]
      exact hj)]
    rw [colVals_geoFixCol_ne]
    intro k hk
    have h1 := df.colIdx_getD hj
    have h2 := df.colIdx_getD hk
    intro hjk
    rw [hjk, h2] at h1
    exact absurd h1 (by decide)
  · intro q h
    simp [coerceGeoCell, maskRangeCell, h]
  · intro q h
    simp [coerceGeoCell, maskRangeCell, h]
  · intro q h
    simp [coerceGeoCell, maskRangeCell, h]

/-- Witness for C8 at the spec's probe values: latitude `10.5` becomes
missing, latitude `-22.9` is preserved, longitude `-150` becomes
missing. -/
theorem corrigir_clamps_coordinates_witness :
    (corrigirCoordenadasGeograficas dfGeoProbe).colVals 0 =
      (dfGeoProbe.colVals 0).map (fun v => maskRangeCell latMin latMax (coerceGeoCell v))
    ∧ maskRangeCell latMin latMax (coerceGeoCell (.num ⟨21, 2⟩)) = .na
    ∧ maskRangeCell latMin latMax (coerceGeoCell (.num ⟨-229, 10⟩)) = .num ⟨-229, 10⟩
    ∧ maskRangeCell lonMin lonMax (coerceGeoCell (.num ⟨-150, 1⟩)) = .na :=
  ⟨(corrigir_clamps_coordinates dfGeoProbe (by decide)).1 0 (by decide),
   (corrigir_clamps_coordinates dfGeoProbe (by decide)).2.2.2.1 ⟨21, 2⟩ (by decide),
   (corrigir_clamps_coordinates dfGeoProbe (by decide)).2.2.1 ⟨-229, 10⟩ (by decide),
   (corrigir_clamps_coordinates dfGeoProbe (by decide)).2.2.2.2 ⟨-150, 1⟩ (by decide)⟩

/-- Witness for the amended C5 at the all-failing oracles. -/
theorem carregar_entrada_exhaustion_witness :
    carregarEntrada attAllFail skipAllFail none none none =
      match skipAllFail ((buildCodifs none).getLastD "utf-8") ((buildSeps none none).headD none) with
      | .ok df => .ok df
      | .error _ => .error (errValOf (attAllFail ((buildCodifs none).getLastD "utf-8")
          ((buildSeps none none).getLastD none))) :=
  carregar_entrada_exhaustion attAllFail skipAllFail none none none (by decide)

/-! ## Infrastructure for the pipeline-level theorems (C1, C2) -/

theorem foldl_id {σ : Type _} {step : Df → σ → Df} {df : Df} :
    ∀ {l : List σ}, (∀ x ∈ l, step df x = df) → l.foldl step df = df := by
  intro l
  induction l with
  | nil => intro _; rfl
  | cons a as ih =>
    intro h
    rw [List.foldl_cons, h a (by simp)]
    exact ih (fun x hx => h x (by simp [hx]))

theorem WF_foldl {σ : Type _} {step : Df → σ → Df}
    (h : ∀ acc x, acc.WF → (step acc x).WF) :
    ∀ (l : List σ) (acc : Df), acc.WF → (l.foldl step acc).WF := by
  intro l
  induction l with
  | nil => exact fun acc hwf => hwf
  | cons a as ih =>
    intro acc hwf
    rw [List.foldl_cons]
    exact ih _ (h acc a hwf)

theorem mem_zipWith_imp {f : α → β → γ} :
    ∀ {l1 : List α} {l2 : List β} {c : γ}, c ∈ List.zipWith f l1 l2 →
      ∃ a b, a ∈ l1 ∧ b ∈ l2 ∧ c = f a b := by
  intro l1
  induction l1 with
  | nil => intro l2 c h; simp at h
  | cons a as ih =>
    intro l2 c h
    cases l2 with
    | nil => simp at h
    | cons b bs =>
      rw [List.zipWith_cons_cons] at h
      rcases List.mem_cons.mp h with h1 | h2
      · exact ⟨a, b, by simp, by simp, h1⟩
      · obtain ⟨a2, b2, ha, hb, hc⟩ := ih h2
        exact ⟨a2, b2, by simp [ha], by simp [hb], hc⟩

theorem WF_setCol {df : Df} {name : String} {vs : List Value} (hwf : df.WF) :
    (df.setCol name vs).WF := by
  unfold Df.setCol
  match hidx : df.colIdx name with
  | some j =>
    intro r hr
    obtain ⟨a, b, ha, _, rfl⟩ := mem_zipWith_imp hr
    simp [List.length_set, hwf a ha]
  | none =>
    intro r hr
    obtain ⟨a, b, ha, _, rfl⟩ := mem_zipWith_imp hr
    simp [hwf a ha]

theorem WF_padronizar {df : Df} (hwf : df.WF) : (padronizarColunas df).WF := by
  intro r hr
  simp only [padronizarColunas] at hr ⊢
  simp [hwf r hr]

theorem WF_parseDateCols {df : Df} (hwf : df.WF) : (parseDateCols df).WF := by
  unfold parseDateCols
  refine WF_foldl ?_ _ _ hwf
  intro acc c hacc
  match acc.colIdx c with
  | some j => exact Df.WF_mapColAt hacc
  | none => exact hacc

theorem WF_combineDateHourCols {df : Df} (hwf : df.WF) : (combineDateHourCols df).WF := by
  unfold combineDateHourCols
  refine WF_foldl ?_ _ _ hwf
  intro acc ch hacc
  match acc.colIdx ch, acc.colIdx "data_inversa" with
  | some jh, some jd => exact WF_setCol hacc
  | some _, none => exact hacc
  | none, some _ => exact hacc
  | none, none => exact hacc

theorem WF_deriveTimeVars {df : Df} (hwf : df.WF) : (deriveTimeVars df).WF := by
  unfold deriveTimeVars
  split
  · exact hwf
  · exact WF_setCol (WF_setCol (WF_setCol (WF_setCol (WF_setCol hwf))))

theorem WF_processar {df : Df} (hwf : df.WF) : (processarDatas df).WF :=
  WF_deriveTimeVars (WF_combineDateHourCols (WF_parseDateCols hwf))

theorem WF_dropNearEmpty (df : Df) (hwf : df.WF) : (dropNearEmpty df).WF := by
  unfold dropNearEmpty
  split
  · exact hwf
  · intro r hr
    simp only [List.mem_map] at hr
    obtain ⟨r0, _, rfl⟩ := hr
    simp [selectIdxs]

theorem WF_imputeNumStep {acc : Df} (j : Nat) (hwf : acc.WF) : (imputeNumStep acc j).WF := by
  unfold imputeNumStep
  split
  · split
    · exact Df.WF_mapColAt hwf
    · exact hwf
  · exact hwf

theorem WF_imputeObjStep {acc : Df} (j : Nat) (hwf : acc.WF) : (imputeObjStep acc j).WF := by
  unfold imputeObjStep
  split
  · exact Df.WF_mapColAt hwf
  · exact hwf

theorem WF_tratar {df : Df} (hwf : df.WF) : (tratarValoresAusentes df).WF := by
  unfold tratarValoresAusentes imputeAllObj imputeAllNum
  exact WF_foldl (fun acc j => WF_imputeObjStep j) _ _
    (WF_foldl (fun acc j => WF_imputeNumStep j) _ _ (WF_dropNearEmpty df hwf))

theorem dedupKeepFirstAux_eq_self [DecidableEq α] :
    ∀ {l seen : List α}, l.Nodup → (∀ x ∈ l, x ∉ seen) → dedupKeepFirstAux seen l = l := by
  intro l
  induction l with
  | nil => intro seen _ _; rfl
  | cons a as ih =>
    intro seen hnd hseen
    have hnd' := List.nodup_cons.mp hnd
    unfold dedupKeepFirstAux
    rw [if_neg (hseen a (by simp))]
    rw [ih hnd'.2 (fun x hx => by
      simp only [List.mem_cons, not_or]
      exact ⟨fun hxa => hnd'.1 (hxa ▸ hx), hseen x (by simp [hx])⟩)]

theorem dedupKeepFirst_eq_self [DecidableEq α] {l : List α} (h : l.Nodup) :
    dedupKeepFirst l = l :=
  dedupKeepFirstAux_eq_self h (by simp)

theorem mem_colVals_cell {df : Df} {j : Nat} {v : Value} (h : v ∈ df.colVals j)
    (hwf : df.WF) (hj : j < df.cols.length) : ∃ r ∈ df.rows, v ∈ r := by
  simp only [Df.colVals, List.mem_map] at h
  obtain ⟨r, hr, rfl⟩ := h
  refine ⟨r, hr, ?_⟩
  have hlen : j < r.length := by rw [hwf r hr]; exact hj
  rw [List.getD_eq_getElem?_getD, List.getElem?_eq_getElem hlen]
  exact List.getElem_mem hlen

/-! ## C1 — pipeline idempotence -/

theorem padronizar_fix {df : Df} (h : df.cols.map normalizeName = df.cols) :
    padronizarColunas df = df := by
  unfold padronizarColunas
  rw [h]

theorem parseDateCols_fix {df : Df}
    (h : ∀ c ∈ temporalNames, c ∉ df.cols) : parseDateCols df = df := by
  unfold parseDateCols
  refine foldl_id ?_
  intro c hc
  have hcc : c ∉ df.cols := by
    apply h c
    revert hc
    simp only [colunasData, temporalNames, List.mem_cons, List.not_mem_nil, or_false]
    tauto
  show (match df.colIdx c with
    | some j => df.mapColAt j (toDatetimeCell true)
    | none => df) = df
  rw [Df.colIdx_none df hcc]

theorem combineDateHourCols_fix {df : Df}
    (h : ∀ c ∈ temporalNames, c ∉ df.cols) : combineDateHourCols df = df := by
  unfold combineDateHourCols
  refine foldl_id ?_
  intro ch _
  have hdi : df.colIdx "data_inversa" = none :=
    Df.colIdx_none df (h "data_inversa" (by simp [temporalNames]))
  show (match df.colIdx ch, df.colIdx "data_inversa" with
    | some jh, some jd =>
      df.setCol "data_hora_completa"
        ((df.colVals jd).zipWith combineDateHour (df.colVals jh))
    | _, _ => df) = df
  rw [hdi]
  cases df.colIdx ch <;> rfl

theorem findTemporalBase_none {df : Df}
    (h : ∀ c ∈ temporalNames, c ∉ df.cols) : findTemporalBase df = none := by
  have h1 := Df.colIdx_none df (h "data_hora_completa" (by simp [temporalNames]))
  have h2 := Df.colIdx_none df (h "data" (by simp [temporalNames]))
  have h3 := Df.colIdx_none df (h "date" (by simp [temporalNames]))
  have h4 := Df.colIdx_none df (h "data_inversa" (by simp [temporalNames]))
  unfold findTemporalBase
  simp [findTemporalBase.go, h1, h2, h3, h4]

theorem deriveTimeVars_fix {df : Df}
    (h : ∀ c ∈ temporalNames, c ∉ df.cols) : deriveTimeVars df = df := by
  unfold deriveTimeVars
  rw [findTemporalBase_none h]

theorem fracNa_countP_zero {df : Df} (hwf : df.WF)
    (hna : ∀ r ∈ df.rows, ∀ v ∈ r, v.isNa = false)
    {j : Nat} (hj : j < df.cols.length) :
    (df.colVals j).countP Value.isNa = 0 := by
  rw [List.countP_eq_zero]
  intro v hv
  obtain ⟨r, hr, hvr⟩ := mem_colVals_cell hv hwf hj
  simp [hna r hr v hvr]

theorem dropNearEmpty_fix {df : Df} (hwf : df.WF)
    (hna : ∀ r ∈ df.rows, ∀ v ∈ r, v.isNa = false) : dropNearEmpty df = df := by
  unfold dropNearEmpty
  rw [if_pos]
  rw [List.isEmpty_iff, List.filter_eq_nil_iff]
  intro j hj
  have h0 := fracNa_countP_zero hwf hna (List.mem_range.mp hj)
  have hq : q95 = ⟨19, 20⟩ := by decide
  simp only [fracNa, h0, hq, Q.bLt]
  simp only [decide_eq_true_eq]
  omega

theorem any_isNa_false {df : Df} (hwf : df.WF)
    (hna : ∀ r ∈ df.rows, ∀ v ∈ r, v.isNa = false)
    {j : Nat} (hj : j < df.cols.length) :
    (df.colVals j).any Value.isNa = false := by
  rw [List.any_eq_false]
  intro v hv
  obtain ⟨r, hr, hvr⟩ := mem_colVals_cell hv hwf hj
  simp [hna r hr v hvr]

theorem imputeAllNum_fix {df : Df} (hwf : df.WF)
    (hna : ∀ r ∈ df.rows, ∀ v ∈ r, v.isNa = false) : imputeAllNum df = df := by
  unfold imputeAllNum
  refine foldl_id ?_
  intro j hjmem
  have hj : j < df.cols.length := List.mem_range.mp (List.mem_filter.mp hjmem).1
  unfold imputeNumStep
  rw [any_isNa_false hwf hna hj]
  simp

theorem imputeAllObj_fix {df : Df} (hwf : df.WF)
    (hna : ∀ r ∈ df.rows, ∀ v ∈ r, v.isNa = false) : imputeAllObj df = df := by
  unfold imputeAllObj
  refine foldl_id ?_
  intro j hjmem
  have hj : j < df.cols.length := List.mem_range.mp (List.mem_filter.mp hjmem).1
  unfold imputeObjStep
  rw [any_isNa_false hwf hna hj]
  simp

theorem removerDuplicatas_fix {df : Df} (h : df.rows.Nodup) :
    removerDuplicatas df = df := by
  unfold removerDuplicatas
  rw [dedupKeepFirst_eq_self h]

theorem geoFixCol_fix {df : Df} {name : String} {lo hi : Q}
    (h : (df.getCol name).all (geoInRangeCell lo hi) = true) :
    geoFixCol df name lo hi = df := by
  unfold geoFixCol
  match hidx : df.colIdx name with
  | none => rfl
  | some j =>
    have hcol : (df.colVals j).all (geoInRangeCell lo hi) = true := by
      rw [← Df.getCol_eq df hidx]
      exact h
    have hall := List.all_eq_true.mp hcol
    show (df.mapColAt j coerceGeoCell).mapColAt j (maskRangeCell lo hi) = df
    have hfix1 : df.mapColAt j coerceGeoCell = df := by
      apply Df.mapColAt_fix
      intro v hv
      have hr := hall v hv
      cases v with
      | num q => rfl
      | na => simp [geoInRangeCell] at hr
      | ndt => simp [geoInRangeCell] at hr
      | str s => simp [geoInRangeCell] at hr
      | dt y m d hh wd => simp [geoInRangeCell] at hr
    rw [hfix1]
    apply Df.mapColAt_fix
    intro v hv
    have hr := hall v hv
    cases v with
    | num q =>
      simp only [geoInRangeCell] at hr
      simp [maskRangeCell, hr]
    | na => simp [geoInRangeCell] at hr
    | ndt => simp [geoInRangeCell] at hr
    | str s => simp [geoInRangeCell] at hr
    | dt y m d hh wd => simp [geoInRangeCell] at hr

/-- C1 as amended: the cleaning pipeline is a no-op on every table that
already satisfies the cleaned-table invariant (normalized column names,
none of the raw temporal trigger columns, no missing values, no
duplicate rows, coordinate columns in range); on general raw tables the
pipeline is *not* idempotent, because the final geographic-correction
stage can null out-of-range coordinates which, on a second run, the
earlier missing-value stage imputes and deduplication may then merge
rows (see the counterexample). -/
theorem executar_fixed_on_cleaned (df : Df) (h : cleanedInvariant df) :
    executar df = df := by
  obtain ⟨hwf, hnorm, htemp, hna, hnd, hlat, hlon⟩ := h
  unfold executar
  rw [padronizar_fix hnorm]
  unfold processarDatas
  rw [parseDateCols_fix htemp, combineDateHourCols_fix htemp, deriveTimeVars_fix htemp]
  unfold tratarValoresAusentes
  rw [dropNearEmpty_fix hwf hna, imputeAllNum_fix hwf hna, imputeAllObj_fix hwf hna]
  rw [removerDuplicatas_fix hnd]
  show geoFixCol (geoFixCol df "latitude" latMin latMax) "longitude" lonMin lonMax = df
  rw [geoFixCol_fix hlat, geoFixCol_fix hlon]

/-- C1 counterexample: on the two-row latitude table `[10.5, -22.9]`
the pipeline is not idempotent — the first run nulls the out-of-range
`10.5`, and the second run imputes that missing value with the median
`-22.9` and then merges the now-identical rows, so running the pipeline
twice does not equal running it once. -/
theorem executar_not_idempotent :
    executar (executar dfLatPair) ≠ executar dfLatPair := by
  decide

/-- Witness for the amended C1: a concrete cleaned table the pipeline
leaves untouched. -/
theorem executar_fixed_on_cleaned_witness :
    cleanedInvariant dfCleanedProbe ∧ executar dfCleanedProbe = dfCleanedProbe :=
  ⟨by decide, executar_fixed_on_cleaned dfCleanedProbe (by decide)⟩

/-! ## C2 — no missing values after cleaning -/

theorem length_selectIdxs {idxs : List Nat} {l : List α} {d : α} :
    (selectIdxs idxs l d).length = idxs.length := by
  simp [selectIdxs]

theorem getD_selectIdxs {idxs : List Nat} {l : List α} {d : α} {j : Nat}
    (hj : j < idxs.length) :
    (selectIdxs idxs l d).getD j d = l.getD (idxs.getD j 0) d := by
  unfold selectIdxs
  rw [List.getD_eq_getElem?_getD, List.getElem?_map, List.getElem?_eq_getElem hj]
  rw [List.getD_eq_getElem?_getD (l := idxs), List.getElem?_eq_getElem hj]
  rfl

/-- After the near-empty-column drop, every surviving column has
missing fraction at most 0.95. -/
theorem dropNearEmpty_frac_le (df : Df) (j : Nat)
    (hj : j < (dropNearEmpty df).cols.length) :
    Q.bLe (fracNa ((dropNearEmpty df).colVals j)) q95 = true := by
  unfold dropNearEmpty at hj ⊢
  by_cases hrem : ((List.range df.cols.length).filter
      (fun k => Q.bLt q95 (fracNa (df.colVals k)))).isEmpty
  · rw [if_pos hrem] at hj ⊢
    have hnil := List.filter_eq_nil_iff.mp (List.isEmpty_iff.mp hrem)
    have := hnil j (List.mem_range.mpr hj)
    rw [Q.bLe_eq_not_bLt]
    simpa using this
  · rw [if_neg hrem] at hj ⊢
    have hjk : j < ((List.range df.cols.length).filter
        (fun k => !Q.bLt q95 (fracNa (df.colVals k)))).length := by
      simpa [length_selectIdxs] using hj
    have hcv : Df.colVals
        { cols := selectIdxs ((List.range df.cols.length).filter
            (fun k => !Q.bLt q95 (fracNa (df.colVals k)))) df.cols "",
          rows := df.rows.map (fun r => selectIdxs ((List.range df.cols.length).filter
            (fun k => !Q.bLt q95 (fracNa (df.colVals k)))) r Value.na) } j =
        df.colVals (((List.range df.cols.length).filter
            (fun k => !Q.bLt q95 (fracNa (df.colVals k)))).getD j 0) := by
      unfold Df.colVals
      rw [List.map_map]
      apply List.map_congr_left
      intro r _
      simp only [Function.comp]
      exact getD_selectIdxs hjk
    rw [hcv]
    have hkm : (((List.range df.cols.length).filter
        (fun k => !Q.bLt q95 (fracNa (df.colVals k)))).getD j 0) ∈
        (List.range df.cols.length).filter
          (fun k => !Q.bLt q95 (fracNa (df.colVals k))) := by
      rw [List.getD_eq_getElem?_getD, List.getElem?_eq_getElem hjk]
      exact List.getElem_mem hjk
    have := (List.mem_filter.mp hkm).2
    rw [Q.bLe_eq_not_bLt]
    exact this

/-- The median exists for a numeric column that has a missing value but
missing fraction at most 0.95. -/
theorem medianQ_isSome {vs : List Value} (hnum : isNumericCol vs = true)
    (hany : vs.any Value.isNa = true) (hfrac : Q.bLe (fracNa vs) q95 = true) :
    ∃ m, medianQ vs = some m := by
  have hq : q95 = ⟨19, 20⟩ := by decide
  have h1 : (vs.countP Value.isNa : Int) * 20 ≤ 19 * (vs.length : Int) := by
    rw [hq] at hfrac
    simpa [Q.bLe, fracNa] using hfrac
  have h2 : 0 < vs.countP Value.isNa := List.countP_pos_iff.mpr (by
    obtain ⟨v, hv, hp⟩ := List.any_eq_true.mp hany
    exact ⟨v, hv, hp⟩)
  have hcount : vs.countP Value.isNa < vs.length := by omega
  have hex : ∃ v ∈ vs, Value.isNa v = false := by
    by_contra hcon
    push_neg at hcon
    have : vs.countP Value.isNa = vs.length := List.countP_eq_length.mpr (fun a ha => by
      have := hcon a ha
      revert this
      cases Value.isNa a <;> simp)
    omega
  obtain ⟨v, hv, hvna⟩ := hex
  have hnumv : ∃ q, v = Value.num q := by
    have hall := List.all_eq_true.mp hnum v hv
    cases v with
    | num q => exact ⟨q, rfl⟩
    | na => simp [Value.isNa] at hvna
    | ndt => simp [Value.isNa] at hvna
    | str s => simp [Value.isNum] at hall
    | dt y m d hh wd => simp [Value.isNum] at hall
  obtain ⟨q, rfl⟩ := hnumv
  have hqmem : q ∈ vs.filterMap numOf := List.mem_filterMap.mpr ⟨Value.num q, hv, rfl⟩
  have hsort : q ∈ sortBy Q.bLe (vs.filterMap numOf) := mem_sortBy.mpr hqmem
  have hlen : ¬(sortBy Q.bLe (vs.filterMap numOf)).length = 0 := by
    intro h0
    rw [List.length_eq_zero] at h0
    rw [h0] at hsort
    exact absurd hsort (List.not_mem_nil q)
  simp only [medianQ]
  rw [if_neg hlen]
  split
  · exact ⟨_, rfl⟩
  · exact ⟨_, rfl⟩

theorem colVals_imputeNumStep_ne {acc : Df} {j k : Nat} (h : j ≠ k) :
    (imputeNumStep acc k).colVals j = acc.colVals j := by
  unfold imputeNumStep
  split
  · split
    · exact Df.colVals_mapColAt_ne h
    · rfl
  · rfl

theorem colVals_imputeObjStep_ne {acc : Df} {j k : Nat} (h : j ≠ k) :
    (imputeObjStep acc k).colVals j = acc.colVals j := by
  unfold imputeObjStep
  split
  · exact Df.colVals_mapColAt_ne h
  · rfl

theorem colVals_foldl_numStep_notmem :
    ∀ {idxs : List Nat} {acc : Df} {j : Nat}, j ∉ idxs →
    (idxs.foldl imputeNumStep acc).colVals j = acc.colVals j := by
  intro idxs
  induction idxs with
  | nil => intro acc j _; rfl
  | cons a as ih =>
    intro acc j h
    simp only [List.mem_cons, not_or] at h
    rw [List.foldl_cons, ih h.2, colVals_imputeNumStep_ne h.1]

theorem colVals_foldl_objStep_notmem :
    ∀ {idxs : List Nat} {acc : Df} {j : Nat}, j ∉ idxs →
    (idxs.foldl imputeObjStep acc).colVals j = acc.colVals j := by
  intro idxs
  induction idxs with
  | nil => intro acc j _; rfl
  | cons a as ih =>
    intro acc j h
    simp only [List.mem_cons, not_or] at h
    rw [List.foldl_cons, ih h.2, colVals_imputeObjStep_ne h.1]

/-- After one numeric imputation step at a surviving numeric column,
the column has no missing values. -/
theorem noNa_imputeNumStep {acc : Df} {j : Nat} (hwf : acc.WF)
    (hj : j < acc.cols.length)
    (hnum : isNumericCol (acc.colVals j) = true)
    (hfrac : Q.bLe (fracNa (acc.colVals j)) q95 = true) :
    ((imputeNumStep acc j).colVals j).all (fun v => !v.isNa) = true := by
  unfold imputeNumStep
  by_cases hany : (acc.colVals j).any Value.isNa = true
  · rw [if_pos hany]
    obtain ⟨m, hm⟩ := medianQ_isSome hnum hany hfrac
    rw [hm]
    rw [Df.colVals_mapColAt_self hwf hj]
    rw [List.all_eq_true]
    intro v hv
    obtain ⟨v0, _, rfl⟩ := List.mem_map.mp hv
    by_cases hna : v0.isNa = true
    · rw [if_pos hna]
      rfl
    · rw [if_neg hna]
      simp only [Bool.not_eq_true] at hna
      simp [hna]
  · rw [if_neg hany]
    simp only [Bool.not_eq_true] at hany
    rw [List.all_eq_true]
    intro v hv
    have := List.any_eq_false.mp hany v hv
    simp [this]

/-- After one object imputation step, the column has no missing
values. -/
theorem noNa_imputeObjStep {acc : Df} {j : Nat} (hwf : acc.WF)
    (hj : j < acc.cols.length) :
    ((imputeObjStep acc j).colVals j).all (fun v => !v.isNa) = true := by
  unfold imputeObjStep
  by_cases hany : (acc.colVals j).any Value.isNa = true
  · rw [if_pos hany]
    rw [Df.colVals_mapColAt_self hwf hj]
    rw [List.all_eq_true]
    intro v hv
    obtain ⟨v0, _, rfl⟩ := List.mem_map.mp hv
    by_cases hna : v0.isNa = true
    · rw [if_pos hna]
      rfl
    · rw [if_neg hna]
      simp only [Bool.not_eq_true] at hna
      simp [hna]
  · rw [if_neg hany]
    simp only [Bool.not_eq_true] at hany
    rw [List.all_eq_true]
    intro v hv
    have := List.any_eq_false.mp hany v hv
    simp [this]

theorem noNa_foldl_numStep :
    ∀ (idxs : List Nat) (acc : Df), idxs.Nodup → acc.WF →
    (∀ k ∈ idxs, k < acc.cols.length) →
    (∀ k ∈ idxs, isNumericCol (acc.colVals k) = true) →
    (∀ k ∈ idxs, Q.bLe (fracNa (acc.colVals k)) q95 = true) →
    ∀ j ∈ idxs, ((idxs.foldl imputeNumStep acc).colVals j).all (fun v => !v.isNa) = true := by
  intro idxs
  induction idxs with
  | nil => intro acc _ _ _ _ _ j hj; exact absurd hj (List.not_mem_nil j)
  | cons a as ih =>
    intro acc hnd hwf hlen hnum hfrac j hj
    have hnd' := List.nodup_cons.mp hnd
    rw [List.foldl_cons]
    rcases List.mem_cons.mp hj with rfl | hjas
    · rw [colVals_foldl_numStep_notmem hnd'.1]
      exact noNa_imputeNumStep hwf (hlen j (by simp)) (hnum j (by simp)) (hfrac j (by simp))
    · have hne : j ≠ a := fun hja => hnd'.1 (hja ▸ hjas)
      have hcv : ∀ k ∈ as, (imputeNumStep acc a).colVals k = acc.colVals k := by
        intro k hk
        exact colVals_imputeNumStep_ne (fun hka => hnd'.1 (hka ▸ hk))
      refine ih (imputeNumStep acc a) hnd'.2 (WF_imputeNumStep a hwf) ?_ ?_ ?_ j hjas
      · intro k hk
        rw [cols_imputeNumStep]
        exact hlen k (by simp [hk])
      · intro k hk
        rw [hcv k hk]
        exact hnum k (by simp [hk])
      · intro k hk
        rw [hcv k hk]
        exact hfrac k (by simp [hk])

theorem noNa_foldl_objStep :
    ∀ (idxs : List Nat) (acc : Df), idxs.Nodup → acc.WF →
    (∀ k ∈ idxs, k < acc.cols.length) →
    ∀ j ∈ idxs, ((idxs.foldl imputeObjStep acc).colVals j).all (fun v => !v.isNa) = true := by
  intro idxs
  induction idxs with
  | nil => intro acc _ _ _ j hj; exact absurd hj (List.not_mem_nil j)
  | cons a as ih =>
    intro acc hnd hwf hlen j hj
    have hnd' := List.nodup_cons.mp hnd
    rw [List.foldl_cons]
    rcases List.mem_cons.mp hj with rfl | hjas
    · rw [colVals_foldl_objStep_notmem hnd'.1]
      exact noNa_imputeObjStep hwf (hlen j (by simp))
    · refine ih (imputeObjStep acc a) hnd'.2 (WF_imputeObjStep a hwf) ?_ j hjas
      intro k hk
      rw [cols_imputeObjStep]
      exact hlen k (by simp [hk])

/-- After `tratar_valores_ausentes`, every numeric and every object
column is free of missing values. -/
theorem tratar_no_missing (df : Df) (hwf : df.WF) (j : Nat)
    (hj : j < (tratarValoresAusentes df).cols.length)
    (hdtype : isNumericCol ((tratarValoresAusentes df).colVals j) = true ∨
      isObjectCol ((tratarValoresAusentes df).colVals j) = true) :
    ((tratarValoresAusentes df).colVals j).all (fun v => !v.isNa) = true := by
  have hwf1 : (dropNearEmpty df).WF := WF_dropNearEmpty df hwf
  have hwf2 : (imputeAllNum (dropNearEmpty df)).WF := by
    unfold imputeAllNum
    exact WF_foldl (fun acc k => WF_imputeNumStep k) _ _ hwf1
  have hcols2 : (imputeAllNum (dropNearEmpty df)).cols = (dropNearEmpty df).cols :=
    cols_imputeAllNum _
  have hj1 : j < (dropNearEmpty df).cols.length := by
    have := hj
    unfold tratarValoresAusentes at this
    rw [cols_imputeAllObj, cols_imputeAllNum] at this
    exact this
  unfold tratarValoresAusentes imputeAllObj at hdtype ⊢
  by_cases hobj : j ∈ (List.range (imputeAllNum (dropNearEmpty df)).cols.length).filter
      (fun k => isObjectCol ((imputeAllNum (dropNearEmpty df)).colVals k))
  · refine noNa_foldl_objStep _ _ (List.Nodup.filter _ (List.nodup_range _)) hwf2 ?_ j hobj
    intro k hk
    exact List.mem_range.mp (List.mem_filter.mp hk).1
  · rw [colVals_foldl_objStep_notmem hobj] at hdtype ⊢
    by_cases hnum : j ∈ (List.range (dropNearEmpty df).cols.length).filter
        (fun k => isNumericCol ((dropNearEmpty df).colVals k))
    · unfold imputeAllNum at hdtype ⊢
      refine noNa_foldl_numStep _ _ (List.Nodup.filter _ (List.nodup_range _)) hwf1 ?_ ?_ ?_ j hnum
      · intro k hk
        exact List.mem_range.mp (List.mem_filter.mp hk).1
      · intro k hk
        exact (List.mem_filter.mp hk).2
      · intro k hk
        exact dropNearEmpty_frac_le df k (List.mem_range.mp (List.mem_filter.mp hk).1)
    · have hnum2 : j ∉ (List.range (dropNearEmpty df).cols.length).filter
          (fun k => isNumericCol ((dropNearEmpty df).colVals k)) := hnum
      have hcvnum : (imputeAllNum (dropNearEmpty df)).colVals j =
          (dropNearEmpty df).colVals j := by
        unfold imputeAllNum
        exact colVals_foldl_numStep_notmem hnum2
      rw [hcvnum] at hdtype ⊢
      exfalso
      rcases hdtype with hd | hd
      · exact hnum (List.mem_filter.mpr ⟨List.mem_range.mpr hj1, hd⟩)
      · apply hobj
        refine List.mem_filter.mpr ⟨List.mem_range.mpr (by rw [hcols2]; exact hj1), ?_⟩
        rw [hcvnum]
        exact hd

theorem mem_colVals_removerDuplicatas {df : Df} {j : Nat} {v : Value} :
    v ∈ (removerDuplicatas df).colVals j ↔ v ∈ df.colVals j := by
  unfold removerDuplicatas Df.colVals
  simp only [List.mem_map]
  constructor
  · rintro ⟨r, hr, rfl⟩
    exact ⟨r, mem_dedupKeepFirst.mp hr, rfl⟩
  · rintro ⟨r, hr, rfl⟩
    exact ⟨r, mem_dedupKeepFirst.mpr hr, rfl⟩

theorem all_of_mem_iff {p : Value → Bool} {l1 l2 : List Value}
    (hiff : ∀ v, v ∈ l1 ↔ v ∈ l2) (h : l2.all p = true) : l1.all p = true := by
  rw [List.all_eq_true] at h ⊢
  exact fun v hv => h v ((hiff v).mp hv)

theorem any_of_mem_iff {p : Value → Bool} {l1 l2 : List Value}
    (hiff : ∀ v, v ∈ l1 ↔ v ∈ l2) (h : l1.any p = true) : l2.any p = true := by
  rw [List.any_eq_true] at h ⊢
  obtain ⟨v, hv, hp⟩ := h
  exact ⟨v, (hiff v).mp hv, hp⟩

theorem colVals_corrigir_other {df : Df} {j : Nat}
    (hlat : df.cols.getD j "" ≠ "latitude") (hlon : df.cols.getD j "" ≠ "longitude") :
    (corrigirCoordenadasGeograficas df).colVals j = df.colVals j := by
  show (geoFixCol (geoFixCol df "latitude" latMin latMax) "longitude" lonMin lonMax).colVals j
    = df.colVals j
  have hlon2 : ∀ k, (geoFixCol df "latitude" latMin latMax).colIdx "longitude" = some k →
      j ≠ k := by
    intro k hk
    rw [colIdx_geoFixCol] at hk
    have h2 := df.colIdx_getD hk
    intro hjk
    rw [hjk, h2] at hlon
    exact hlon rfl
  have hlat2 : ∀ k, df.colIdx "latitude" = some k → j ≠ k := by
    intro k hk
    have h2 := df.colIdx_getD hk
    intro hjk
    rw [hjk, h2] at hlat
    exact hlat rfl
  rw [colVals_geoFixCol_ne hlon2, colVals_geoFixCol_ne hlat2]

theorem cols_corrigir (df : Df) : (corrigirCoordenadasGeograficas df).cols = df.cols := by
  unfold corrigirCoordenadasGeograficas
  rw [cols_geoFixCol, cols_geoFixCol]

theorem cols_removerDuplicatas (df : Df) : (removerDuplicatas df).cols = df.cols := rfl

/-- C2 as amended: after the full pipeline, every numeric and every
object (categorical) column *other than* `latitude` and `longitude`
contains no missing values — the missing-value stage imputes every
numeric column with its median and every categorical column with the
sentinel, deduplication cannot reintroduce missing values, and
geographic correction only touches the two coordinate columns.  For
the coordinate columns themselves the claim fails: geographic
correction runs *after* missing-value handling and nulls out-of-range
values (see the counterexample). -/
theorem executar_no_missing_outside_geo (df : Df) (hwf : df.WF) (j : Nat)
    (hj : j < (executar df).cols.length)
    (hlat : (executar df).cols.getD j "" ≠ "latitude")
    (hlon : (executar df).cols.getD j "" ≠ "longitude")
    (hdtype : isNumericCol ((executar df).colVals j) = true ∨
      isObjectCol ((executar df).colVals j) = true) :
    ((executar df).colVals j).all (fun v => !v.isNa) = true := by
  have hwfX : (processarDatas (padronizarColunas df)).WF := WF_processar (WF_padronizar hwf)
  have hcolsC : (executar df).cols =
      (tratarValoresAusentes (processarDatas (padronizarColunas df))).cols := by
    unfold executar
    rw [cols_corrigir, cols_removerDuplicatas]
  have hcolsB :
      (removerDuplicatas (tratarValoresAusentes (processarDatas (padronizarColunas df)))).cols
      = (executar df).cols := by
    rw [cols_removerDuplicatas, ← hcolsC]
  have hCB : (executar df).colVals j =
      (removerDuplicatas (tratarValoresAusentes (processarDatas (padronizarColunas df)))).colVals j := by
    unfold executar
    apply colVals_corrigir_other
    · rw [hcolsB]
      exact hlat
    · rw [hcolsB]
      exact hlon
  have hmemBA : ∀ v, v ∈ (executar df).colVals j ↔
      v ∈ (tratarValoresAusentes (processarDatas (padronizarColunas df))).colVals j := by
    intro v
    rw [hCB]
    exact mem_colVals_removerDuplicatas
  have hjA : j < (tratarValoresAusentes (processarDatas (padronizarColunas df))).cols.length := by
    rw [← hcolsC]
    exact hj
  have hdtypeA : isNumericCol
      ((tratarValoresAusentes (processarDatas (padronizarColunas df))).colVals j) = true ∨
      isObjectCol ((tratarValoresAusentes (processarDatas (padronizarColunas df))).colVals j) = true := by
    rcases hdtype with hd | hd
    · left
      unfold isNumericCol at hd ⊢
      exact all_of_mem_iff (fun v => (hmemBA v).symm) hd
    · right
      unfold isObjectCol at hd ⊢
      exact any_of_mem_iff hmemBA hd
  have hnoNaA := tratar_no_missing _ hwfX j hjA hdtypeA
  exact all_of_mem_iff hmemBA hnoNaA

/-- C2 counterexample: on a table whose only column is latitude `10.5`,
the pipeline output has a missing value in the (numeric) latitude
column — geographic correction reintroduces missing values after the
imputation stage, so the cleaned table is not missing-free. -/
theorem executar_latitude_missing :
    (executar dfLatSingle).cols = ["latitude"]
    ∧ (executar dfLatSingle).colVals 0 = [Value.na]
    ∧ isNumericCol ((executar dfLatSingle).colVals 0) = true := by
  decide

/-- Witness for the amended C2 on a table with a string column and an
out-of-range latitude: the `uf` column of the output has no missing
values even though the latitude column does. -/
theorem executar_no_missing_outside_geo_witness :
    ((executar dfCounterC2w).colVals 0).all (fun v => !v.isNa) = true :=
  executar_no_missing_outside_geo dfCounterC2w (by decide) 0 (by decide)
    (by decide) (by decide) (by decide)

end TrafficAnalysis
